import Mathlib

/-! cfssl `ocspgen`: a shallow embedding of `cli/ocspgen/ocspgen.go`

The command `ocspgenMain` talks to four collaborators that live outside the file:
the OCSP signer (`ocsp`), the certificate store (`certdb`), the PEM parser
(`helpers`) and the Go standard library (`time`, `encoding/base64`, `fmt`).

The embedding is by explicit state passing.  The outside world is a value of an
arbitrary type `W`; every collaborator is a field of `Env` that maps a world to
a result and a new world.  Each function of the source returns a `Run`: its Go
result, the world it leaves behind, and the list of calls it made to the
collaborators together with what every call answered (`Event`).  All statements
about "what the command does" are statements about that list.  A collaborator
always returns; a call that panics has no counterpart in the embedding.

Go strings that carry text (paths, PEM, status tags, serial numbers) are Lean
`String`s, Go strings and slices that carry binary data (the OCSP response) are
lists of bytes; the conversions `[]byte(s)` and `string(b)` of the source do not
change the contents and are therefore not visible in the embedding.
-/

namespace Ocspgen

deriving instance DecidableEq for Except

/-! ## Data model -/

/-- Binary data: `[]byte`, and Go strings that hold raw bytes. -/
abbrev Bytes := List UInt8

/-- The fields of `cli.Config` that `ocspgen.go` reads.  `Interval` is a
`time.Duration`, a count of nanoseconds. -/
structure Config where
  CAFile : String
  ResponderFile : String
  ResponderKeyFile : String
  KeyFile : String
  Interval : Int
  DBConfigFile : String
  Status : String
deriving DecidableEq, Repr

/-- Modelled from the spec: `certdb.CertificateRecord`, whose declaration is in package
`certdb`; the fields are the ones section 3 of the spec lists (serial identity, status
tag, reason code, revocation timestamp, PEM encoding). -/
structure CertificateRecord (Time : Type) where
  Serial : String
  Status : String
  Reason : Int
  RevokedAt : Time
  PEM : String
deriving DecidableEq, Repr

/-- Modelled from the spec: `certdb.OCSPRecord`, whose declaration is in package `certdb`; it
has a serial number, the raw response body and an expiration (spec, section 3). -/
structure OCSPRecord (Time : Type) where
  Serial : String
  Body : Bytes
  Expiry : Time
deriving DecidableEq, Repr

/-- Modelled from the spec: `ocsp.SignRequest`, whose declaration is in package `ocsp`; the
four fields are the ones the source assigns (lines 63-70) and section 6 of the spec lists. -/
structure SignRequest (Cert Time : Type) where
  Certificate : Cert
  Status : String
  Reason : Int
  RevokedAt : Time
deriving DecidableEq, Repr

/-! ## The collaborators -/

/-- Everything `ocspgen.go` calls and does not define.  `Option DB` is a `*sql.DB`
(`none` is the nil pointer); a pair `(value, error)` returned by a Go function
is an `Except`, an `error` alone is an `Option Err` (`none` is nil). -/
structure Env (Time Err DB Signer Cert W : Type) where
  /-- The zero value `time.Time{}`. -/
  zeroTime : Time
  /-- The method `Time.AddDate(years, months, days)`. -/
  AddDate : Time → Int → Int → Int → Time
  /-- The function `time.Now()`. -/
  Now : W → Time × W
  /-- The function `ocsp.NewSignerFromFile(caFile, responderFile, keyFile, interval)`. -/
  NewSignerFromFile : String → String → String → Int → W → Except Err Signer × W
  /-- The function `certdb.DBFromConfig(path)`. -/
  DBFromConfig : String → W → Except Err DB × W
  /-- The function `certdb.GetUnexpiredCertificates(db)`. -/
  GetUnexpiredCertificates : Option DB → W → Except Err (List (CertificateRecord Time)) × W
  /-- The function `helpers.ParseCertificatePEM(pem)`. -/
  ParseCertificatePEM : String → Except Err Cert
  /-- The field `SerialNumber` of a parsed certificate, a `*big.Int`. -/
  SerialNumber : Cert → Int
  /-- The method `Signer.Sign(req)`. -/
  Sign : Signer → SignRequest Cert Time → W → Except Err Bytes × W
  /-- The function `certdb.UpdateOCSP(db, serial, body, expiry)`. -/
  UpdateOCSP : Option DB → String → Bytes → Time → W → Option Err × W
  /-- The function `certdb.GetUnexpiredOCSPs(db)`. -/
  GetUnexpiredOCSPs : Option DB → W → Except Err (List (OCSPRecord Time)) × W

/-- One interaction of the command with the outside: the call, its arguments and
(where the callee returns something) its answer.  `Critical` and `Error` are the
two log calls, `Printf` is a write to standard output. -/
inductive Event (Time Err DB Signer Cert : Type) where
  | NewSignerFromFile (caFile responderFile keyFile : String) (interval : Int)
      (res : Except Err Signer)
  | Critical (msg : String) (err : Err)
  | Error (msg : String)
  | DBFromConfig (path : String) (res : Except Err DB)
  | GetUnexpiredCertificates (db : Option DB)
      (res : Except Err (List (CertificateRecord Time)))
  | ParseCertificatePEM (pem : String) (res : Except Err Cert)
  | Sign (s : Signer) (req : SignRequest Cert Time) (res : Except Err Bytes)
  | Now (t : Time)
  | UpdateOCSP (db : Option DB) (serial : String) (body : Bytes) (expiry : Time)
      (res : Option Err)
  | GetUnexpiredOCSPs (db : Option DB) (res : Except Err (List (OCSPRecord Time)))
  | Printf (out : String)
deriving DecidableEq

/-- The outcome of running a function of the source: what it returns, the world
it leaves, and its interactions in the order they happened. -/
structure Run (α W Ev : Type) where
  val : α
  world : W
  trace : List Ev

/-! ## Standard library pieces -/

/-- The alphabet of `base64.StdEncoding` (RFC 4648, table 1). -/
def encodeStd : List Char :=
  "ABCDEFGHIJKLMNOPQRSTUVWXYZabcdefghijklmnopqrstuvwxyz0123456789+/".toList

/-- The lookup `enc.encode[v & 0x3F]`. -/
def encodeChar (v : Nat) : Char := encodeStd.getD (v % 64) '='

/-- The function `base64.StdEncoding.EncodeToString`: three bytes become four characters of
the alphabet; a rest of one or two bytes becomes two or three characters, padded
with `=` to four. -/
def EncodeToChars : Bytes → List Char
  | [] => []
  | [a] =>
      let val := a.toNat * 65536
      [encodeChar (val / 262144), encodeChar (val / 4096), '=', '=']
  | [a, b] =>
      let val := a.toNat * 65536 + b.toNat * 256
      [encodeChar (val / 262144), encodeChar (val / 4096), encodeChar (val / 64), '=']
  | a :: b :: c :: rest =>
      let val := a.toNat * 65536 + b.toNat * 256 + c.toNat
      encodeChar (val / 262144) :: encodeChar (val / 4096) :: encodeChar (val / 64)
        :: encodeChar val :: EncodeToChars rest

/-- The function `base64.StdEncoding.EncodeToString` as a string. -/
def EncodeToString (src : Bytes) : String := String.mk (EncodeToChars src)

/-- The method `(*big.Int).String()`: the decimal digits, after a minus sign when negative. -/
def bigIntString : Int → String
  | Int.ofNat n => Nat.repr n
  | Int.negSucc n => "-" ++ Nat.repr (n + 1)

/-! ## The source: `ocspgen.go` -/

section Source

variable {Time Err DB Signer Cert W : Type}

/-- `SignerFromConfig` (lines 95-103): the responder key, or the general key when
no responder key is configured, goes to `ocsp.NewSignerFromFile`. -/
def SignerFromConfig (env : Env Time Err DB Signer Cert W) (c : Config) (w : W) :
    Run (Except Err Signer) W (Event Time Err DB Signer Cert) :=
  let k := c.ResponderKeyFile
  let k := if k = "" then c.KeyFile else k
  let r := env.NewSignerFromFile c.CAFile c.ResponderFile k c.Interval w
  ⟨r.1, r.2, [Event.NewSignerFromFile c.CAFile c.ResponderFile k c.Interval r.1]⟩

/-- Lines 63-71 of `ocspgenMain`: the request built for one certificate record
and its parsed certificate.  `Reason` and `RevokedAt` start as Go zero values. -/
def signRequest (env : Env Time Err DB Signer Cert W) (c : Config)
    (certRecord : CertificateRecord Time) (cert : Cert) : SignRequest Cert Time :=
  let req : SignRequest Cert Time :=
    { Certificate := cert, Status := c.Status, Reason := 0, RevokedAt := env.zeroTime }
  if certRecord.Status ≠ "revoked" then
    { req with Reason := certRecord.Reason, RevokedAt := certRecord.RevokedAt }
  else
    req

/-- Lines 56-81 of `ocspgenMain`: the loop over the certificate records.  The
value is the error the loop returns with, `none` when it runs to its end. -/
def signLoop (env : Env Time Err DB Signer Cert W) (c : Config) (s : Signer) :
    List (CertificateRecord Time) → W → Run (Option Err) W (Event Time Err DB Signer Cert)
  | [], w => ⟨none, w, []⟩
  | certRecord :: rest, w =>
    match env.ParseCertificatePEM certRecord.PEM with
    | .error err =>
      ⟨some err, w,
        [Event.ParseCertificatePEM certRecord.PEM (.error err),
         Event.Critical "Unable to parse certificate: " err]⟩
    | .ok cert =>
      let req := signRequest env c certRecord cert
      match env.Sign s req w with
      | (.error err, w1) =>
        ⟨some err, w1,
          [Event.ParseCertificatePEM certRecord.PEM (.ok cert),
           Event.Sign s req (.error err),
           Event.Critical "Unable to sign OCSP response: " err]⟩
      | (.ok resp, w1) =>
        let serial := bigIntString (env.SerialNumber cert)
        let now := env.Now w1
        let expiry := env.AddDate now.1 0 0 1
        let upd := env.UpdateOCSP none serial resp expiry now.2
        let r := signLoop env c s rest upd.2
        ⟨r.val, r.world,
          [Event.ParseCertificatePEM certRecord.PEM (.ok cert),
           Event.Sign s req (.ok resp),
           Event.Now now.1,
           Event.UpdateOCSP none serial resp expiry upd.1] ++ r.trace⟩

/-- Lines 88-90 of `ocspgenMain`: one `fmt.Printf("%s\n", ...)` per OCSP record. -/
def printLoop : List (OCSPRecord Time) → List (Event Time Err DB Signer Cert)
  | [] => []
  | certRecord :: rest =>
    Event.Printf (EncodeToString certRecord.Body ++ "\n") :: printLoop rest

set_option linter.unusedVariables false in
/-- `ocspgenMain` (lines 32-92).  The value is the returned `error`, `none` for nil. -/
def ocspgenMain (env : Env Time Err DB Signer Cert W) (args : List String) (c : Config)
    (w : W) : Run (Option Err) W (Event Time Err DB Signer Cert) :=
  let r := SignerFromConfig env c w
  match r.val with
  | .error err =>
    ⟨some err, r.world, r.trace ++ [Event.Critical "Unable to create OCSP signer: " err]⟩
  | .ok s =>
    if c.DBConfigFile = "" then
      ⟨none, r.world, r.trace ++ [Event.Error "need DB config file (provide with -db-config)"]⟩
    else
      match env.DBFromConfig c.DBConfigFile r.world with
      | (.error err, w2) =>
        ⟨some err, w2, r.trace ++ [Event.DBFromConfig c.DBConfigFile (.error err)]⟩
      | (.ok db, w2) =>
        match env.GetUnexpiredCertificates (some db) w2 with
        | (.error err, w3) =>
          ⟨some err, w3, r.trace ++
            [Event.DBFromConfig c.DBConfigFile (.ok db),
             Event.GetUnexpiredCertificates (some db) (.error err)]⟩
        | (.ok certs, w3) =>
          let l := signLoop env c s certs w3
          match l.val with
          | some err =>
            ⟨some err, l.world, r.trace ++
              [Event.DBFromConfig c.DBConfigFile (.ok db),
               Event.GetUnexpiredCertificates (some db) (.ok certs)] ++ l.trace⟩
          | none =>
            match env.GetUnexpiredOCSPs (some db) l.world with
            | (.error err, w5) =>
              ⟨some err, w5, r.trace ++
                [Event.DBFromConfig c.DBConfigFile (.ok db),
                 Event.GetUnexpiredCertificates (some db) (.ok certs)] ++ l.trace ++
                [Event.GetUnexpiredOCSPs (some db) (.error err)]⟩
            | (.ok records, w5) =>
              ⟨none, w5, r.trace ++
                [Event.DBFromConfig c.DBConfigFile (.ok db),
                 Event.GetUnexpiredCertificates (some db) (.ok certs)] ++ l.trace ++
                [Event.GetUnexpiredOCSPs (some db) (.ok records)] ++ printLoop records⟩

end Source

/-! ## Reading a trace -/

section Observations

variable {Time Err DB Signer Cert W : Type}

/-- The request of a call to `Signer.Sign`. -/
def Event.signRequest? : Event Time Err DB Signer Cert → Option (SignRequest Cert Time)
  | .Sign _ req _ => some req
  | _ => none

/-- The answer of a call to `Signer.Sign`. -/
def Event.signOutcome? : Event Time Err DB Signer Cert → Option (Except Err Bytes)
  | .Sign _ _ res => some res
  | _ => none

/-- The arguments of a call to `certdb.UpdateOCSP`. -/
def Event.upsert? : Event Time Err DB Signer Cert → Option (Option DB × String × Bytes × Time)
  | .UpdateOCSP db serial body expiry _ => some (db, serial, body, expiry)
  | _ => none

/-- The answer of a call to `certdb.UpdateOCSP`. -/
def Event.upsertOutcome? : Event Time Err DB Signer Cert → Option (Option Err)
  | .UpdateOCSP _ _ _ _ res => some res
  | _ => none

/-- The input of a call to `helpers.ParseCertificatePEM`. -/
def Event.parsedPEM? : Event Time Err DB Signer Cert → Option String
  | .ParseCertificatePEM pem _ => some pem
  | _ => none

/-- The text of a write to standard output. -/
def Event.printed? : Event Time Err DB Signer Cert → Option String
  | .Printf out => some out
  | _ => none

/-- The reading of a call to `time.Now`. -/
def Event.clock? : Event Time Err DB Signer Cert → Option Time
  | .Now t => some t
  | _ => none

/-- The handle of a call that opens or reads the store. -/
def Event.storeAccess? : Event Time Err DB Signer Cert → Option Unit
  | .DBFromConfig _ _ => some ()
  | .GetUnexpiredCertificates _ _ => some ()
  | .GetUnexpiredOCSPs _ _ => some ()
  | _ => none

/-- The handle and the answer of a call to `certdb.GetUnexpiredOCSPs`. -/
def Event.ocspRead? : Event Time Err DB Signer Cert →
    Option (Option DB × Except Err (List (OCSPRecord Time)))
  | .GetUnexpiredOCSPs db res => some (db, res)
  | _ => none

/-- The reads of the OCSP records: handle and answer, in call order. -/
def ocspReads (t : List (Event Time Err DB Signer Cert)) :
    List (Option DB × Except Err (List (OCSPRecord Time))) :=
  t.filterMap Event.ocspRead?

/-- The requests passed to the signer, in call order. -/
def signRequests (t : List (Event Time Err DB Signer Cert)) : List (SignRequest Cert Time) :=
  t.filterMap Event.signRequest?

/-- The answers of the signer, in call order. -/
def signOutcomes (t : List (Event Time Err DB Signer Cert)) : List (Except Err Bytes) :=
  t.filterMap Event.signOutcome?

/-- The argument lists of the calls to `certdb.UpdateOCSP`, in call order. -/
def upserts (t : List (Event Time Err DB Signer Cert)) :
    List (Option DB × String × Bytes × Time) :=
  t.filterMap Event.upsert?

/-- The answers of the calls to `certdb.UpdateOCSP`, in call order. -/
def upsertOutcomes (t : List (Event Time Err DB Signer Cert)) : List (Option Err) :=
  t.filterMap Event.upsertOutcome?

/-- The PEM texts handed to the parser, in call order. -/
def parsedPEMs (t : List (Event Time Err DB Signer Cert)) : List String :=
  t.filterMap Event.parsedPEM?

/-- The writes to standard output, in order. -/
def printed (t : List (Event Time Err DB Signer Cert)) : List String :=
  t.filterMap Event.printed?

/-- Standard output as one text. -/
def stdout (t : List (Event Time Err DB Signer Cert)) : String :=
  String.join (printed t)

/-- The clock readings taken by the command itself, in order. -/
def clockReads (t : List (Event Time Err DB Signer Cert)) : List Time :=
  t.filterMap Event.clock?

/-- The calls that open or read the store. -/
def storeAccesses (t : List (Event Time Err DB Signer Cert)) : List Unit :=
  t.filterMap Event.storeAccess?

/-- What happened to one certificate record that the loop handled to the end:
the certificate its PEM parsed to, the bytes the signer returned, the clock
reading taken for the expiration and the answer of the store write. -/
structure Step (Time Err Cert : Type) where
  cert : Cert
  resp : Bytes
  now : Time
  res : Option Err

/-- The four interactions of one complete pass through the loop body. -/
def stepEvents (env : Env Time Err DB Signer Cert W) (c : Config) (s : Signer)
    (r : CertificateRecord Time) (st : Step Time Err Cert) :
    List (Event Time Err DB Signer Cert) :=
  [Event.ParseCertificatePEM r.PEM (.ok st.cert),
   Event.Sign s (signRequest env c r st.cert) (.ok st.resp),
   Event.Now st.now,
   Event.UpdateOCSP none (bigIntString (env.SerialNumber st.cert)) st.resp
     (env.AddDate st.now 0 0 1) st.res]

/-- The interactions of complete passes over a list of records, record by record. -/
def passes (env : Env Time Err DB Signer Cert W) (c : Config) (s : Signer) :
    List (CertificateRecord Time) → List (Step Time Err Cert) →
    List (Event Time Err DB Signer Cert)
  | r :: rs, st :: sts => stepEvents env c s r st ++ passes env c s rs sts
  | _, _ => []

/-- The interactions before the loop of a run that reached the loop. -/
def opening (c : Config) (s : Signer) (db : DB) (certs : List (CertificateRecord Time)) :
    List (Event Time Err DB Signer Cert) :=
  [Event.NewSignerFromFile c.CAFile c.ResponderFile
     (if c.ResponderKeyFile = "" then c.KeyFile else c.ResponderKeyFile) c.Interval (.ok s),
   Event.DBFromConfig c.DBConfigFile (.ok db),
   Event.GetUnexpiredCertificates (some db) (.ok certs)]

/-- The interactions after the loop: none when the run ended inside the loop,
otherwise the read of the unexpired OCSP records and, when that read succeeded, one
write to standard output per record. -/
def closing (db : DB) : Option (Except Err (List (OCSPRecord Time))) →
    List (Event Time Err DB Signer Cert)
  | none => []
  | some (.error e) => [Event.GetUnexpiredOCSPs (some db) (.error e)]
  | some (.ok records) => Event.GetUnexpiredOCSPs (some db) (.ok records) :: printLoop records

end Observations

/-! ## An in-memory world for concrete runs

The general statements below hold for every `Env`.  To run the command on concrete
inputs the collaborators are instantiated here by small in-memory stand-ins:
times are seconds since 1970-01-01T00:00:00 UTC, errors are messages, a store
handle is the configuration path it was opened from. -/

section Memory

/-- Days from 1970-01-01 to the civil date `y`-`m`-`d` in the proleptic Gregorian
calendar (`m` from 1 to 12; `d` may run past the end of the month). -/
def daysFromCivil (y m d : Int) : Int :=
  let y := if m ≤ 2 then y - 1 else y
  let era := y / 400
  let yoe := y - era * 400
  let mp := (m + 9) % 12
  let doy := (153 * mp + 2) / 5 + d - 1
  let doe := yoe * 365 + yoe / 4 - yoe / 100 + doy
  era * 146097 + doe - 719468

/-- The civil date (year, month, day) of a day count since 1970-01-01. -/
def civilFromDays (z : Int) : Int × Int × Int :=
  let z := z + 719468
  let era := z / 146097
  let doe := z - era * 146097
  let yoe := (doe - doe / 1460 + doe / 36524 - doe / 146096) / 365
  let doy := doe - (365 * yoe + yoe / 4 - yoe / 100)
  let mp := (5 * doy + 2) / 153
  let d := doy - (153 * mp + 2) / 5 + 1
  let m := if mp < 10 then mp + 3 else mp - 9
  (if m ≤ 2 then yoe + era * 400 + 1 else yoe + era * 400, m, d)

/-- `Time.AddDate` for times in UTC: the date is shifted field by field and then
normalised, the time of day is kept. -/
def utcAddDate (t years months days : Int) : Int :=
  let date := civilFromDays (t / 86400)
  let m0 := date.2.1 - 1 + months
  let y := date.1 + years + m0 / 12
  let m := m0 % 12 + 1
  (daysFromCivil y m 1 + (date.2.2 - 1 + days)) * 86400 + t % 86400

/-- A parsed certificate of the in-memory world: only its serial number. -/
structure MemCert where
  SerialNumber : Int
deriving DecidableEq, Repr

/-- A signer of the in-memory world: the files it was built from. -/
structure MemSigner where
  caFile : String
  responderFile : String
  keyFile : String
  interval : Int
deriving DecidableEq, Repr

/-- Modelled from the spec: the certificate store of package `certdb` together with the
clock, as section 6 of the spec describes them: a table of unexpired certificate
records and a table of OCSP records keyed by serial number. -/
structure Mem where
  clock : Int
  certificates : List (CertificateRecord Int)
  ocsps : List (OCSPRecord Int)
  readOnly : Bool
deriving DecidableEq, Repr

/-- Modelled from the spec: the store write of package `certdb` ("accepts serial number, raw
response body, expiration timestamp; overwrites any prior record for that
serial"). -/
def memUpsert (serial : String) (body : Bytes) (expiry : Int) :
    List (OCSPRecord Int) → List (OCSPRecord Int)
  | [] => [⟨serial, body, expiry⟩]
  | r :: rest =>
    if r.Serial = serial then ⟨serial, body, expiry⟩ :: rest
    else r :: memUpsert serial body expiry rest

/-- The response bytes of the in-memory signer: a tag, the status, the reason and the
low byte of the serial number. -/
def memResponse (req : SignRequest MemCert Int) : Bytes :=
  [48, if req.Status = "good" then 0 else if req.Status = "revoked" then 1 else 2,
   UInt8.ofNat (req.Reason.toNat % 256), UInt8.ofNat (req.Certificate.SerialNumber.toNat % 256)]

/-- Modelled from the spec: the collaborators of section 6 of the spec over the in-memory world.
`pems` lists the PEM texts that parse, with the serial number of the certificate;
`refused` lists the serial numbers the signer fails on.  The clock advances by one
second per reading.  A write to a read-only store fails, whatever the handle; a
store call on a nil handle fails; a failed call changes nothing. -/
def memEnv (pems : List (String × Int)) (refused : List Int) :
    Env Int String String MemSigner MemCert Mem where
  zeroTime := -62135596800
  AddDate := utcAddDate
  Now := fun w => (w.clock, { w with clock := w.clock + 1 })
  NewSignerFromFile := fun caFile responderFile keyFile interval w =>
    if caFile = "" ∨ responderFile = "" ∨ keyFile = "" then
      (.error "open : no such file or directory", w)
    else (.ok ⟨caFile, responderFile, keyFile, interval⟩, w)
  DBFromConfig := fun path w => (.ok path, w)
  GetUnexpiredCertificates := fun db w =>
    match db with
    | none => (.error "nil database handle", w)
    | some _ => (.ok w.certificates, w)
  ParseCertificatePEM := fun pem =>
    match pems.lookup pem with
    | some n => .ok ⟨n⟩
    | none => .error "failed to parse certificate"
  SerialNumber := fun cert => cert.SerialNumber
  Sign := fun _ req w =>
    if req.Certificate.SerialNumber ∈ refused then (.error "signing failed", w)
    else (.ok (memResponse req), w)
  UpdateOCSP := fun db serial body expiry w =>
    if w.readOnly then (some "attempt to write a readonly database", w)
    else
      match db with
      | none => (some "nil database handle", w)
      | some _ => (none, { w with ocsps := memUpsert serial body expiry w.ocsps })
  GetUnexpiredOCSPs := fun db w =>
    match db with
    | none => (.error "nil database handle", w)
    | some _ => (.ok (w.ocsps.filter (fun r => decide (w.clock < r.Expiry))), w)

/-- A configuration with a responder key and a store configuration; the requested
status is `good`, the interval 96 hours. -/
def memConfig : Config :=
  { CAFile := "ca.pem", ResponderFile := "responder.pem",
    ResponderKeyFile := "responder-key.pem", KeyFile := "ca-key.pem",
    Interval := 345600000000000, DBConfigFile := "db-config.json", Status := "good" }

/-- The PEM texts of the concrete runs: two certificates, serial numbers 10 and 11. -/
def memPEMs : List (String × Int) := [("PEM A", 10), ("PEM B", 11)]

/-- The scenario of section 8 of the spec at 2024-01-01T00:00:00 UTC: certificate A
is good, certificate B was revoked with reason 1 at 2023-12-31T00:00:00 UTC.  The
store holds one earlier response for A that has not expired. -/
def memWorld : Mem :=
  { clock := 1704067200,
    certificates :=
      [⟨"10", "good", 0, -62135596800, "PEM A"⟩,
       ⟨"11", "revoked", 1, 1703980800, "PEM B"⟩],
    ocsps := [⟨"10", [48, 0, 0, 10], 1704070800⟩],
    readOnly := false }

/-- The same scenario on a store that refuses every write. -/
def memReadOnly : Mem := { memWorld with readOnly := true }

/-- The PEM texts of the runs with three certificates, serial numbers 10, 11 and 12. -/
def memThreePEMs : List (String × Int) := [("PEM A", 10), ("PEM B", 11), ("PEM C", 12)]

/-- The scenario with a third unexpired certificate, C, good, after A and B. -/
def memThree : Mem :=
  { memWorld with
    certificates := memWorld.certificates ++ [⟨"12", "good", 0, -62135596800, "PEM C"⟩] }

end Memory

/-! ## Facts about the encoding -/

/-- No character of the alphabet, and not the padding, is a line feed. -/
theorem encodeChar_ne_newline (v : Nat) : encodeChar v ≠ '\n' := by
  have h : ∀ n, n < 64 → encodeStd.getD n '=' ≠ '\n' := by decide
  exact h (v % 64) (Nat.mod_lt v (by decide))

/-- The encoding of a byte string contains no line feed. -/
theorem EncodeToChars_no_newline (src : Bytes) : '\n' ∉ EncodeToChars src := by
  induction src using EncodeToChars.induct with
  | case1 => simp [EncodeToChars]
  | case2 a =>
    simp only [EncodeToChars, List.mem_cons, List.mem_singleton, not_or]
    exact ⟨(encodeChar_ne_newline _).symm, (encodeChar_ne_newline _).symm, by decide, by decide⟩
  | case3 a b =>
    simp only [EncodeToChars, List.mem_cons, List.mem_singleton, not_or]
    exact ⟨(encodeChar_ne_newline _).symm, (encodeChar_ne_newline _).symm,
      (encodeChar_ne_newline _).symm, by decide⟩
  | case4 a b c' rest ih =>
    simp only [EncodeToChars, List.mem_cons, not_or]
    exact ⟨(encodeChar_ne_newline _).symm, (encodeChar_ne_newline _).symm,
      (encodeChar_ne_newline _).symm, (encodeChar_ne_newline _).symm, ih⟩

/-- Four characters for every three bytes begun. -/
theorem EncodeToChars_length (src : Bytes) :
    (EncodeToChars src).length = 4 * ((src.length + 2) / 3) := by
  induction src using EncodeToChars.induct with
  | case1 => rfl
  | case2 a => simp [EncodeToChars]
  | case3 a b => simp [EncodeToChars]
  | case4 a b c' rest ih =>
    simp only [EncodeToChars, List.length_cons, ih]
    omega

/-- The test vectors of RFC 4648, section 10 ("f", "fo", "foo", "foob", "fooba",
"foobar"). -/
theorem EncodeToString_rfc4648 :
    EncodeToString [] = "" ∧
    EncodeToString [102] = "Zg==" ∧
    EncodeToString [102, 111] = "Zm8=" ∧
    EncodeToString [102, 111, 111] = "Zm9v" ∧
    EncodeToString [102, 111, 111, 98] = "Zm9vYg==" ∧
    EncodeToString [102, 111, 111, 98, 97] = "Zm9vYmE=" ∧
    EncodeToString [102, 111, 111, 98, 97, 114] = "Zm9vYmFy" ∧
    EncodeToString [251, 255, 191] = "+/+/" := by
  decide

/-- Decimal digits of serial numbers, with a sign for negative ones. -/
theorem bigIntString_examples :
    bigIntString 0 = "0" ∧ bigIntString 10 = "10" ∧ bigIntString (-12345) = "-12345" ∧
    bigIntString 18446744073709551616 = "18446744073709551616" := by
  decide

/-! ## The loop, one record at a time -/

section LoopLemmas

variable {Time Err DB Signer Cert W : Type}
variable (env : Env Time Err DB Signer Cert W) (c : Config) (s : Signer)

theorem signLoop_nil (w : W) : signLoop env c s [] w = ⟨none, w, []⟩ := rfl

theorem signLoop_parse_error (r : CertificateRecord Time) (rest : List (CertificateRecord Time))
    (w : W) (e : Err) (h : env.ParseCertificatePEM r.PEM = .error e) :
    signLoop env c s (r :: rest) w =
      ⟨some e, w, [Event.ParseCertificatePEM r.PEM (.error e),
        Event.Critical "Unable to parse certificate: " e]⟩ := by
  simp only [signLoop, h]

theorem signLoop_sign_error (r : CertificateRecord Time) (rest : List (CertificateRecord Time))
    (w w1 : W) (cert : Cert) (e : Err) (h : env.ParseCertificatePEM r.PEM = .ok cert)
    (hs : env.Sign s (signRequest env c r cert) w = (.error e, w1)) :
    signLoop env c s (r :: rest) w =
      ⟨some e, w1, [Event.ParseCertificatePEM r.PEM (.ok cert),
        Event.Sign s (signRequest env c r cert) (.error e),
        Event.Critical "Unable to sign OCSP response: " e]⟩ := by
  simp only [signLoop, h, hs]

theorem signLoop_step (r : CertificateRecord Time) (rest : List (CertificateRecord Time))
    (w w1 : W) (cert : Cert) (resp : Bytes) (h : env.ParseCertificatePEM r.PEM = .ok cert)
    (hs : env.Sign s (signRequest env c r cert) w = (.ok resp, w1)) :
    signLoop env c s (r :: rest) w =
      ⟨(signLoop env c s rest (env.UpdateOCSP none (bigIntString (env.SerialNumber cert)) resp
          (env.AddDate (env.Now w1).1 0 0 1) (env.Now w1).2).2).val,
       (signLoop env c s rest (env.UpdateOCSP none (bigIntString (env.SerialNumber cert)) resp
          (env.AddDate (env.Now w1).1 0 0 1) (env.Now w1).2).2).world,
       stepEvents env c s r
          ⟨cert, resp, (env.Now w1).1,
            (env.UpdateOCSP none (bigIntString (env.SerialNumber cert)) resp
              (env.AddDate (env.Now w1).1 0 0 1) (env.Now w1).2).1⟩ ++
        (signLoop env c s rest (env.UpdateOCSP none (bigIntString (env.SerialNumber cert)) resp
          (env.AddDate (env.Now w1).1 0 0 1) (env.Now w1).2).2).trace⟩ := by
  simp only [signLoop, h, hs, stepEvents, List.cons_append, List.nil_append]

/-- The loop only parses, signs, reads the clock, writes OCSP records and logs a
critical message: a reading of the trace that ignores those five sees nothing. -/
theorem filterMap_signLoop {β : Type} (f : Event Time Err DB Signer Cert → Option β)
    (h1 : ∀ pem res, f (Event.ParseCertificatePEM pem res) = none)
    (h2 : ∀ s req res, f (Event.Sign s req res) = none)
    (h3 : ∀ t, f (Event.Now t) = none)
    (h4 : ∀ db serial body expiry res, f (Event.UpdateOCSP db serial body expiry res) = none)
    (h5 : ∀ msg e, f (Event.Critical msg e) = none)
    (certs : List (CertificateRecord Time)) (w : W) :
    (signLoop env c s certs w).trace.filterMap f = [] := by
  induction certs generalizing w with
  | nil => rfl
  | cons r rest ih =>
    cases hp : env.ParseCertificatePEM r.PEM with
    | error e =>
      rw [signLoop_parse_error env c s r rest w e hp]
      simp only [List.filterMap_cons, List.filterMap_nil, h1, h5]
    | ok cert =>
      rcases hs : env.Sign s (signRequest env c r cert) w with ⟨res, w1⟩
      cases res with
      | error e =>
        rw [signLoop_sign_error env c s r rest w w1 cert e hp hs]
        simp only [List.filterMap_cons, List.filterMap_nil, h1, h2, h5]
      | ok resp =>
        rw [signLoop_step env c s r rest w w1 cert resp hp hs]
        simp only [stepEvents, List.filterMap_append, List.filterMap_cons, List.filterMap_nil,
          h1, h2, h3, h4, ih, List.append_nil]

/-- No store is opened or read inside the loop. -/
theorem storeAccesses_signLoop (certs : List (CertificateRecord Time)) (w : W) :
    storeAccesses (signLoop env c s certs w).trace = [] :=
  filterMap_signLoop env c s _ (fun _ _ => rfl) (fun _ _ _ => rfl) (fun _ => rfl)
    (fun _ _ _ _ _ => rfl) (fun _ _ => rfl) certs w

/-- Nothing is written to standard output inside the loop. -/
theorem printed_signLoop (certs : List (CertificateRecord Time)) (w : W) :
    printed (signLoop env c s certs w).trace = [] :=
  filterMap_signLoop env c s _ (fun _ _ => rfl) (fun _ _ _ => rfl) (fun _ => rfl)
    (fun _ _ _ _ _ => rfl) (fun _ _ => rfl) certs w

/-- A loop that runs to its end over `xs` continues with `ys`. -/
theorem signLoop_append_of_none (xs ys : List (CertificateRecord Time)) (w : W)
    (h : (signLoop env c s xs w).val = none) :
    signLoop env c s (xs ++ ys) w =
      ⟨(signLoop env c s ys (signLoop env c s xs w).world).val,
       (signLoop env c s ys (signLoop env c s xs w).world).world,
       (signLoop env c s xs w).trace ++
         (signLoop env c s ys (signLoop env c s xs w).world).trace⟩ := by
  induction xs generalizing w with
  | nil => rfl
  | cons r rest ih =>
    cases hp : env.ParseCertificatePEM r.PEM with
    | error e =>
      rw [signLoop_parse_error env c s r rest w e hp] at h
      cases h
    | ok cert =>
      rcases hs : env.Sign s (signRequest env c r cert) w with ⟨res, w1⟩
      cases res with
      | error e =>
        rw [signLoop_sign_error env c s r rest w w1 cert e hp hs] at h
        cases h
      | ok resp =>
        rw [signLoop_step env c s r rest w w1 cert resp hp hs] at h
        rw [List.cons_append, signLoop_step env c s r (rest ++ ys) w w1 cert resp hp hs,
          signLoop_step env c s r rest w w1 cert resp hp hs, ih _ h, List.append_assoc]

/-- A loop that returns an error inside `xs` never reaches `ys`. -/
theorem signLoop_append_of_some (xs ys : List (CertificateRecord Time)) (w : W) (e : Err)
    (h : (signLoop env c s xs w).val = some e) :
    signLoop env c s (xs ++ ys) w = signLoop env c s xs w := by
  induction xs generalizing w with
  | nil => cases h
  | cons r rest ih =>
    cases hp : env.ParseCertificatePEM r.PEM with
    | error e1 =>
      rw [List.cons_append, signLoop_parse_error env c s r rest w e1 hp,
        signLoop_parse_error env c s r (rest ++ ys) w e1 hp]
    | ok cert =>
      rcases hs : env.Sign s (signRequest env c r cert) w with ⟨res, w1⟩
      cases res with
      | error e1 =>
        rw [List.cons_append, signLoop_sign_error env c s r rest w w1 cert e1 hp hs,
          signLoop_sign_error env c s r (rest ++ ys) w w1 cert e1 hp hs]
      | ok resp =>
        rw [signLoop_step env c s r rest w w1 cert resp hp hs] at h
        rw [List.cons_append, signLoop_step env c s r (rest ++ ys) w w1 cert resp hp hs,
          signLoop_step env c s r rest w w1 cert resp hp hs, ih _ h]

/-- A loop that runs to its end has made one complete pass per record. -/
theorem signLoop_passes (certs : List (CertificateRecord Time)) (w : W)
    (h : (signLoop env c s certs w).val = none) :
    ∃ steps : List (Step Time Err Cert),
      List.Forall₂ (fun r st => env.ParseCertificatePEM r.PEM = .ok st.cert) certs steps ∧
      (signLoop env c s certs w).trace = passes env c s certs steps := by
  induction certs generalizing w with
  | nil => exact ⟨[], List.Forall₂.nil, rfl⟩
  | cons r rest ih =>
    cases hp : env.ParseCertificatePEM r.PEM with
    | error e =>
      rw [signLoop_parse_error env c s r rest w e hp] at h
      cases h
    | ok cert =>
      rcases hs : env.Sign s (signRequest env c r cert) w with ⟨res, w1⟩
      cases res with
      | error e =>
        rw [signLoop_sign_error env c s r rest w w1 cert e hp hs] at h
        cases h
      | ok resp =>
        rw [signLoop_step env c s r rest w w1 cert resp hp hs] at h ⊢
        obtain ⟨steps, hf, ht⟩ := ih _ h
        refine ⟨⟨cert, resp, (env.Now w1).1,
          (env.UpdateOCSP none (bigIntString (env.SerialNumber cert)) resp
            (env.AddDate (env.Now w1).1 0 0 1) (env.Now w1).2).1⟩ :: steps,
          List.Forall₂.cons hp hf, ?_⟩
        simp only [ht, passes]

/-- A loop over records that all parse can only return an error of the signer. -/
theorem signLoop_error_of_parsed (certs : List (CertificateRecord Time)) (w : W) (e : Err)
    (hparse : ∀ r ∈ certs, ∃ cert, env.ParseCertificatePEM r.PEM = .ok cert)
    (h : (signLoop env c s certs w).val = some e) :
    Except.error e ∈ signOutcomes (signLoop env c s certs w).trace := by
  induction certs generalizing w with
  | nil => cases h
  | cons r rest ih =>
    obtain ⟨cert, hp⟩ := hparse r (List.mem_cons_self _ _)
    rcases hs : env.Sign s (signRequest env c r cert) w with ⟨res, w1⟩
    cases res with
    | error e1 =>
      rw [signLoop_sign_error env c s r rest w w1 cert e1 hp hs] at h ⊢
      cases h
      simp [signOutcomes, Event.signOutcome?]
    | ok resp =>
      rw [signLoop_step env c s r rest w w1 cert resp hp hs] at h ⊢
      have := ih _ (fun r' hr' => hparse r' (List.mem_cons_of_mem _ hr')) h
      simp only [signOutcomes, List.filterMap_append, List.mem_append] at this ⊢
      exact Or.inr this

/-- The request carries the configured status, whatever the record says. -/
theorem signRequest_Status (r : CertificateRecord Time) (cert : Cert) :
    (signRequest env c r cert).Status = c.Status := by
  unfold signRequest
  split <;> rfl

/-- The request carries the certificate it was built for. -/
theorem signRequest_Certificate (r : CertificateRecord Time) (cert : Cert) :
    (signRequest env c r cert).Certificate = cert := by
  unfold signRequest
  split <;> rfl

/-- What line 68 does with a revoked record: reason and revocation time stay zero. -/
theorem signRequest_of_revoked (r : CertificateRecord Time) (cert : Cert)
    (h : r.Status = "revoked") :
    signRequest env c r cert = ⟨cert, c.Status, 0, env.zeroTime⟩ := by
  simp only [signRequest, h, ne_eq, not_true_eq_false, if_false]

/-- What line 68 does with any other record: reason and revocation time are copied. -/
theorem signRequest_of_not_revoked (r : CertificateRecord Time) (cert : Cert)
    (h : r.Status ≠ "revoked") :
    signRequest env c r cert = ⟨cert, c.Status, r.Reason, r.RevokedAt⟩ := by
  simp only [signRequest, h, ne_eq, not_false_eq_true, if_true]

/-- Every store write of the loop goes to the nil handle. -/
theorem signLoop_upserts_nil (certs : List (CertificateRecord Time)) (w : W) :
    ∀ u ∈ upserts (signLoop env c s certs w).trace, u.1 = none := by
  induction certs generalizing w with
  | nil => intro u hu; cases hu
  | cons r rest ih =>
    cases hp : env.ParseCertificatePEM r.PEM with
    | error e =>
      rw [signLoop_parse_error env c s r rest w e hp]
      intro u hu; cases hu
    | ok cert =>
      rcases hs : env.Sign s (signRequest env c r cert) w with ⟨res, w1⟩
      cases res with
      | error e =>
        rw [signLoop_sign_error env c s r rest w w1 cert e hp hs]
        intro u hu; cases hu
      | ok resp =>
        rw [signLoop_step env c s r rest w w1 cert resp hp hs]
        intro u hu
        simp only [upserts, stepEvents, List.filterMap_append, List.filterMap_cons,
          List.filterMap_nil, Event.upsert?, List.cons_append, List.nil_append,
          List.mem_cons] at hu
        rcases hu with rfl | hu
        · rfl
        · exact ih _ u hu

/-- The loop does not look at the answer of a store write: its result is decided by
the parser and the signer alone. -/
theorem signLoop_val_none_of_signed (certs : List (CertificateRecord Time)) (w : W)
    (hparse : ∀ r ∈ certs, ∃ cert, env.ParseCertificatePEM r.PEM = .ok cert)
    (hsign : ∀ req w1, ∃ resp w2, env.Sign s req w1 = (.ok resp, w2)) :
    (signLoop env c s certs w).val = none := by
  induction certs generalizing w with
  | nil => rfl
  | cons r rest ih =>
    obtain ⟨cert, hp⟩ := hparse r (List.mem_cons_self _ _)
    obtain ⟨resp, w1, hs⟩ := hsign (signRequest env c r cert) w
    rw [signLoop_step env c s r rest w w1 cert resp hp hs]
    exact ih _ (fun r' hr' => hparse r' (List.mem_cons_of_mem _ hr'))

/-- The signer is called for a beginning of the list, once per record and in order,
with the configured status and the certificate parsed from the record. -/
theorem signLoop_signRequests (certs : List (CertificateRecord Time)) (w : W) :
    ∃ handled, handled <+: certs ∧
      List.Forall₂ (fun r req => req.Status = c.Status ∧
          env.ParseCertificatePEM r.PEM = .ok req.Certificate)
        handled (signRequests (signLoop env c s certs w).trace) := by
  induction certs generalizing w with
  | nil => exact ⟨[], List.prefix_refl _, List.Forall₂.nil⟩
  | cons r rest ih =>
    cases hp : env.ParseCertificatePEM r.PEM with
    | error e =>
      rw [signLoop_parse_error env c s r rest w e hp]
      exact ⟨[], List.nil_prefix, List.Forall₂.nil⟩
    | ok cert =>
      have hreq : (signRequest env c r cert).Status = c.Status ∧
          env.ParseCertificatePEM r.PEM = .ok (signRequest env c r cert).Certificate := by
        rw [signRequest_Certificate]
        exact ⟨signRequest_Status env c r cert, hp⟩
      rcases hs : env.Sign s (signRequest env c r cert) w with ⟨res, w1⟩
      cases res with
      | error e =>
        rw [signLoop_sign_error env c s r rest w w1 cert e hp hs]
        refine ⟨[r], ?_, ?_⟩
        · exact (List.prefix_cons_inj r).2 List.nil_prefix
        · exact List.Forall₂.cons hreq List.Forall₂.nil
      | ok resp =>
        rw [signLoop_step env c s r rest w w1 cert resp hp hs]
        obtain ⟨handled, hpre, hf⟩ := ih
          (env.UpdateOCSP none (bigIntString (env.SerialNumber cert)) resp
            (env.AddDate (env.Now w1).1 0 0 1) (env.Now w1).2).2
        refine ⟨r :: handled, (List.prefix_cons_inj r).2 hpre, ?_⟩
        exact List.Forall₂.cons hreq hf

/-- When the answers of the signer begin with one success per record of `done`
followed by the error `e`, whatever comes after, the loop has run to its end over
`done` and the failing call is the one for the next record. -/
theorem signLoop_of_signOutcomes (done : List (CertificateRecord Time))
    (r : CertificateRecord Time) (rest : List (CertificateRecord Time)) (e : Err)
    (bodies : List Bytes) (w : W) (hlen : bodies.length = done.length)
    (h : bodies.map Except.ok ++ [Except.error e] <+:
      signOutcomes (signLoop env c s (done ++ r :: rest) w).trace) :
    (signLoop env c s done w).val = none ∧ ∃ cert w1,
      env.ParseCertificatePEM r.PEM = .ok cert ∧
      env.Sign s (signRequest env c r cert) (signLoop env c s done w).world = (.error e, w1) := by
  induction done generalizing w bodies with
  | nil =>
    cases bodies with
    | cons b bs => cases hlen
    | nil =>
      refine ⟨rfl, ?_⟩
      cases hp : env.ParseCertificatePEM r.PEM with
      | error e1 =>
        rw [List.nil_append, signLoop_parse_error env c s r rest w e1 hp] at h
        simp [signOutcomes, Event.signOutcome?] at h
      | ok cert =>
        rcases hs : env.Sign s (signRequest env c r cert) w with ⟨res, w1⟩
        cases res with
        | error e1 =>
          rw [List.nil_append, signLoop_sign_error env c s r rest w w1 cert e1 hp hs] at h
          simp [signOutcomes, Event.signOutcome?] at h
          subst h
          exact ⟨cert, w1, rfl, hs⟩
        | ok resp =>
          rw [List.nil_append, signLoop_step env c s r rest w w1 cert resp hp hs] at h
          simp [signOutcomes, Event.signOutcome?, stepEvents] at h
  | cons d ds ih =>
    cases bodies with
    | nil => cases hlen
    | cons b bs =>
      cases hp : env.ParseCertificatePEM d.PEM with
      | error e1 =>
        rw [List.cons_append, signLoop_parse_error env c s d _ w e1 hp] at h
        simp [signOutcomes, Event.signOutcome?] at h
      | ok cert =>
        rcases hs : env.Sign s (signRequest env c d cert) w with ⟨res, w1⟩
        cases res with
        | error e1 =>
          rw [List.cons_append, signLoop_sign_error env c s d _ w w1 cert e1 hp hs] at h
          simp [signOutcomes, Event.signOutcome?] at h
        | ok resp =>
          rw [List.cons_append, signLoop_step env c s d _ w w1 cert resp hp hs] at h
          rw [signLoop_step env c s d ds w w1 cert resp hp hs]
          simp only [signOutcomes, stepEvents, List.filterMap_append, List.filterMap_cons,
            Event.signOutcome?, List.filterMap_nil, List.map_cons, List.cons_append,
            List.nil_append, List.cons_prefix_cons] at h
          exact ih bs _ (by simpa using hlen) h.2

/-! ### Reading the trace of complete passes -/

section Passes

variable {R : CertificateRecord Time → Step Time Err Cert → Prop}

/-- One store write per complete pass: nil handle, decimal serial number, the bytes
the signer returned, the clock reading shifted by `AddDate(0, 0, 1)`. -/
theorem upserts_passes {certs : List (CertificateRecord Time)}
    {steps : List (Step Time Err Cert)} (h : List.Forall₂ R certs steps) :
    upserts (passes env c s certs steps) =
      steps.map (fun st => (none, bigIntString (env.SerialNumber st.cert), st.resp,
        env.AddDate st.now 0 0 1)) := by
  induction h with
  | nil => rfl
  | cons _ _ ih =>
    simp only [upserts] at ih
    simp only [upserts, passes, stepEvents, List.filterMap_append, List.filterMap_cons,
      List.filterMap_nil, Event.upsert?, ih, List.map_cons, List.cons_append, List.nil_append]

/-- The answers of the store writes of complete passes. -/
theorem upsertOutcomes_passes {certs : List (CertificateRecord Time)}
    {steps : List (Step Time Err Cert)} (h : List.Forall₂ R certs steps) :
    upsertOutcomes (passes env c s certs steps) = steps.map (fun st => st.res) := by
  induction h with
  | nil => rfl
  | cons _ _ ih =>
    simp only [upsertOutcomes] at ih
    simp only [upsertOutcomes, passes, stepEvents, List.filterMap_append, List.filterMap_cons,
      List.filterMap_nil, Event.upsertOutcome?, ih, List.map_cons, List.cons_append,
      List.nil_append]

/-- The signer succeeds once per complete pass. -/
theorem signOutcomes_passes {certs : List (CertificateRecord Time)}
    {steps : List (Step Time Err Cert)} (h : List.Forall₂ R certs steps) :
    signOutcomes (passes env c s certs steps) = steps.map (fun st => Except.ok st.resp) := by
  induction h with
  | nil => rfl
  | cons _ _ ih =>
    simp only [signOutcomes] at ih
    simp only [signOutcomes, passes, stepEvents, List.filterMap_append, List.filterMap_cons,
      List.filterMap_nil, Event.signOutcome?, ih, List.map_cons, List.cons_append,
      List.nil_append]

/-- The requests of complete passes, record by record. -/
theorem signRequests_passes (certs : List (CertificateRecord Time))
    (steps : List (Step Time Err Cert)) :
    signRequests (passes env c s certs steps) =
      List.zipWith (fun r st => signRequest env c r st.cert) certs steps := by
  induction certs generalizing steps with
  | nil => cases steps <;> rfl
  | cons r rs ih =>
    cases steps with
    | nil => rfl
    | cons st sts =>
      have := ih sts
      simp only [signRequests] at this
      simp only [signRequests, passes, stepEvents, List.filterMap_append, List.filterMap_cons,
        List.filterMap_nil, Event.signRequest?, this, List.zipWith_cons_cons, List.cons_append,
        List.nil_append]

/-- The clock is read once per complete pass. -/
theorem clockReads_passes {certs : List (CertificateRecord Time)}
    {steps : List (Step Time Err Cert)} (h : List.Forall₂ R certs steps) :
    clockReads (passes env c s certs steps) = steps.map (fun st => st.now) := by
  induction h with
  | nil => rfl
  | cons _ _ ih =>
    simp only [clockReads] at ih
    simp only [clockReads, passes, stepEvents, List.filterMap_append, List.filterMap_cons,
      List.filterMap_nil, Event.clock?, ih, List.map_cons, List.cons_append, List.nil_append]

/-- The parser is called once per complete pass, on the PEM of the record. -/
theorem parsedPEMs_passes {certs : List (CertificateRecord Time)}
    {steps : List (Step Time Err Cert)} (h : List.Forall₂ R certs steps) :
    parsedPEMs (passes env c s certs steps) = certs.map (fun r => r.PEM) := by
  induction h with
  | nil => rfl
  | cons _ _ ih =>
    simp only [parsedPEMs] at ih
    simp only [parsedPEMs, passes, stepEvents, List.filterMap_append, List.filterMap_cons,
      List.filterMap_nil, Event.parsedPEM?, ih, List.map_cons, List.cons_append,
      List.nil_append]

/-- Complete passes write nothing to standard output. -/
theorem printed_passes (certs : List (CertificateRecord Time))
    (steps : List (Step Time Err Cert)) :
    printed (passes env c s certs steps) = [] := by
  induction certs generalizing steps with
  | nil => cases steps <;> rfl
  | cons r rs ih =>
    cases steps with
    | nil => rfl
    | cons st sts =>
      have := ih sts
      simp only [printed] at this
      simp only [printed, passes, stepEvents, List.filterMap_append, List.filterMap_cons,
        List.filterMap_nil, Event.printed?, this, List.append_nil]

end Passes

end LoopLemmas

/-! ## The shape of a run -/

section RunLemmas

variable {Time Err DB Signer Cert W : Type}
variable (env : Env Time Err DB Signer Cert W)

/-- The output loop only writes to standard output. -/
theorem filterMap_printLoop {β : Type} (f : Event Time Err DB Signer Cert → Option β)
    (hf : ∀ out, f (Event.Printf out) = none) (records : List (OCSPRecord Time)) :
    (printLoop records).filterMap f = [] := by
  induction records with
  | nil => rfl
  | cons r rest ih => simp only [printLoop, List.filterMap_cons, hf, ih]

/-- The output loop writes one line per record, in order. -/
theorem printed_printLoop (records : List (OCSPRecord Time)) :
    printed (printLoop records : List (Event Time Err DB Signer Cert)) =
      records.map (fun r => EncodeToString r.Body ++ "\n") := by
  induction records with
  | nil => rfl
  | cons r rest ih =>
    simp only [printed] at ih
    simp only [printed, printLoop, List.filterMap_cons, Event.printed?, ih, List.map_cons]

/-- The trace of `SignerFromConfig` when it succeeds. -/
theorem SignerFromConfig_trace_ok (c : Config) (w : W) (s : Signer)
    (h : (SignerFromConfig env c w).val = .ok s) :
    (SignerFromConfig env c w).trace =
      [Event.NewSignerFromFile c.CAFile c.ResponderFile
        (if c.ResponderKeyFile = "" then c.KeyFile else c.ResponderKeyFile) c.Interval (.ok s)] := by
  simp only [SignerFromConfig] at h ⊢
  rw [h]

/-- The trace of `SignerFromConfig` when it fails. -/
theorem SignerFromConfig_trace_error (c : Config) (w : W) (e : Err)
    (h : (SignerFromConfig env c w).val = .error e) :
    (SignerFromConfig env c w).trace =
      [Event.NewSignerFromFile c.CAFile c.ResponderFile
        (if c.ResponderKeyFile = "" then c.KeyFile else c.ResponderKeyFile) c.Interval
        (.error e)] := by
  simp only [SignerFromConfig] at h ⊢
  rw [h]

/-- Every run of `ocspgenMain` leaves at one of its seven exits. -/
theorem ocspgenMain_cases (args : List String) (c : Config) (w : W) :
    (∃ e, (SignerFromConfig env c w).val = .error e ∧
      ocspgenMain env args c w =
        ⟨some e, (SignerFromConfig env c w).world,
          [Event.NewSignerFromFile c.CAFile c.ResponderFile
            (if c.ResponderKeyFile = "" then c.KeyFile else c.ResponderKeyFile) c.Interval
            (.error e),
           Event.Critical "Unable to create OCSP signer: " e]⟩) ∨
    (∃ s, (SignerFromConfig env c w).val = .ok s ∧ c.DBConfigFile = "" ∧
      ocspgenMain env args c w =
        ⟨none, (SignerFromConfig env c w).world,
          [Event.NewSignerFromFile c.CAFile c.ResponderFile
            (if c.ResponderKeyFile = "" then c.KeyFile else c.ResponderKeyFile) c.Interval
            (.ok s),
           Event.Error "need DB config file (provide with -db-config)"]⟩) ∨
    (∃ s e w2, (SignerFromConfig env c w).val = .ok s ∧ c.DBConfigFile ≠ "" ∧
      env.DBFromConfig c.DBConfigFile (SignerFromConfig env c w).world = (.error e, w2) ∧
      ocspgenMain env args c w =
        ⟨some e, w2,
          [Event.NewSignerFromFile c.CAFile c.ResponderFile
            (if c.ResponderKeyFile = "" then c.KeyFile else c.ResponderKeyFile) c.Interval
            (.ok s),
           Event.DBFromConfig c.DBConfigFile (.error e)]⟩) ∨
    (∃ s db w2 e w3, (SignerFromConfig env c w).val = .ok s ∧ c.DBConfigFile ≠ "" ∧
      env.DBFromConfig c.DBConfigFile (SignerFromConfig env c w).world = (.ok db, w2) ∧
      env.GetUnexpiredCertificates (some db) w2 = (.error e, w3) ∧
      ocspgenMain env args c w =
        ⟨some e, w3,
          [Event.NewSignerFromFile c.CAFile c.ResponderFile
            (if c.ResponderKeyFile = "" then c.KeyFile else c.ResponderKeyFile) c.Interval
            (.ok s),
           Event.DBFromConfig c.DBConfigFile (.ok db),
           Event.GetUnexpiredCertificates (some db) (.error e)]⟩) ∨
    (∃ s db w2 certs w3, (SignerFromConfig env c w).val = .ok s ∧ c.DBConfigFile ≠ "" ∧
      env.DBFromConfig c.DBConfigFile (SignerFromConfig env c w).world = (.ok db, w2) ∧
      env.GetUnexpiredCertificates (some db) w2 = (.ok certs, w3) ∧
      ((∃ e, (signLoop env c s certs w3).val = some e ∧
          ocspgenMain env args c w =
            ⟨some e, (signLoop env c s certs w3).world,
              opening c s db certs ++ (signLoop env c s certs w3).trace⟩) ∨
       ((signLoop env c s certs w3).val = none ∧ ∃ e w5,
          env.GetUnexpiredOCSPs (some db) (signLoop env c s certs w3).world = (.error e, w5) ∧
          ocspgenMain env args c w =
            ⟨some e, w5,
              opening c s db certs ++ (signLoop env c s certs w3).trace ++
                [Event.GetUnexpiredOCSPs (some db) (.error e)]⟩) ∨
       ((signLoop env c s certs w3).val = none ∧ ∃ records w5,
          env.GetUnexpiredOCSPs (some db) (signLoop env c s certs w3).world = (.ok records, w5) ∧
          ocspgenMain env args c w =
            ⟨none, w5,
              opening c s db certs ++ (signLoop env c s certs w3).trace ++
                (Event.GetUnexpiredOCSPs (some db) (.ok records) :: printLoop records)⟩))) := by
  cases hsc : (SignerFromConfig env c w).val with
  | error e =>
    left
    refine ⟨e, rfl, ?_⟩
    simp only [ocspgenMain, hsc, SignerFromConfig_trace_error env c w e hsc, List.cons_append,
      List.nil_append]
  | ok s =>
    right
    have ht := SignerFromConfig_trace_ok env c w s hsc
    by_cases hcfg : c.DBConfigFile = ""
    · left
      refine ⟨s, rfl, hcfg, ?_⟩
      simp only [ocspgenMain, hsc, ht, hcfg, if_true, List.cons_append, List.nil_append]
    · right
      rcases hdb : env.DBFromConfig c.DBConfigFile (SignerFromConfig env c w).world with ⟨rdb, w2⟩
      cases rdb with
      | error e =>
        left
        refine ⟨s, e, w2, rfl, hcfg, rfl, ?_⟩
        simp only [ocspgenMain, hsc, ht, hcfg, if_false, hdb, List.cons_append, List.nil_append]
      | ok db =>
        right
        rcases hc : env.GetUnexpiredCertificates (some db) w2 with ⟨rc, w3⟩
        cases rc with
        | error e =>
          left
          refine ⟨s, db, w2, e, w3, rfl, hcfg, rfl, hc, ?_⟩
          simp only [ocspgenMain, hsc, ht, hcfg, if_false, hdb, hc, List.cons_append,
            List.nil_append]
        | ok certs =>
          right
          refine ⟨s, db, w2, certs, w3, rfl, hcfg, rfl, hc, ?_⟩
          cases hl : (signLoop env c s certs w3).val with
          | some e =>
            left
            refine ⟨e, rfl, ?_⟩
            simp only [ocspgenMain, hsc, ht, hcfg, if_false, hdb, hc, hl, opening,
              List.cons_append, List.nil_append]
          | none =>
            right
            rcases ho : env.GetUnexpiredOCSPs (some db) (signLoop env c s certs w3).world
              with ⟨ro, w5⟩
            cases ro with
            | error e =>
              left
              refine ⟨rfl, e, w5, rfl, ?_⟩
              simp only [ocspgenMain, hsc, ht, hcfg, if_false, hdb, hc, hl, ho, opening,
                List.cons_append, List.nil_append, List.append_assoc]
            | ok records =>
              right
              refine ⟨rfl, records, w5, rfl, ?_⟩
              simp only [ocspgenMain, hsc, ht, hcfg, if_false, hdb, hc, hl, ho, opening,
                List.cons_append, List.nil_append, List.append_assoc]

/-- A run in which the store returned the list `certs` has opened the store and
entered the loop with that list; it ends in the loop, at the read of the OCSP
records, or after the output loop. -/
theorem ocspgenMain_of_read (args : List String) (c : Config) (w : W) (db : DB)
    (certs : List (CertificateRecord Time))
    (hread : Event.GetUnexpiredCertificates (some db) (.ok certs) ∈
      (ocspgenMain env args c w).trace) :
    ∃ s w2 w3, (SignerFromConfig env c w).val = .ok s ∧ c.DBConfigFile ≠ "" ∧
      env.DBFromConfig c.DBConfigFile (SignerFromConfig env c w).world = (.ok db, w2) ∧
      env.GetUnexpiredCertificates (some db) w2 = (.ok certs, w3) ∧
      ((∃ e, (signLoop env c s certs w3).val = some e ∧
          ocspgenMain env args c w =
            ⟨some e, (signLoop env c s certs w3).world,
              opening c s db certs ++ (signLoop env c s certs w3).trace⟩) ∨
       ((signLoop env c s certs w3).val = none ∧ ∃ e w5,
          env.GetUnexpiredOCSPs (some db) (signLoop env c s certs w3).world = (.error e, w5) ∧
          ocspgenMain env args c w =
            ⟨some e, w5,
              opening c s db certs ++ (signLoop env c s certs w3).trace ++
                [Event.GetUnexpiredOCSPs (some db) (.error e)]⟩) ∨
       ((signLoop env c s certs w3).val = none ∧ ∃ records w5,
          env.GetUnexpiredOCSPs (some db) (signLoop env c s certs w3).world = (.ok records, w5) ∧
          ocspgenMain env args c w =
            ⟨none, w5,
              opening c s db certs ++ (signLoop env c s certs w3).trace ++
                (Event.GetUnexpiredOCSPs (some db) (.ok records) :: printLoop records)⟩)) := by
  have hloop : ∀ (s : Signer) (l : List (CertificateRecord Time)) (w3 : W),
      Event.GetUnexpiredCertificates (some db) (.ok certs) ∉ (signLoop env c s l w3).trace := by
    intro s l w3 hmem
    have h := List.filterMap_eq_nil_iff.1 (storeAccesses_signLoop env c s l w3) _ hmem
    cases h
  have hprint : ∀ records : List (OCSPRecord Time),
      Event.GetUnexpiredCertificates (some db) (.ok certs) ∉
        (printLoop records : List (Event Time Err DB Signer Cert)) := by
    intro records hmem
    have h := List.filterMap_eq_nil_iff.1
      (filterMap_printLoop Event.storeAccess? (fun _ => rfl) records) _ hmem
    cases h
  rcases ocspgenMain_cases env args c w with
    ⟨e, _, hrun⟩ | ⟨s, _, _, hrun⟩ | ⟨s, e, w2, _, _, _, hrun⟩ |
    ⟨s, db1, w2, e, w3, _, _, _, _, hrun⟩ | ⟨s, db1, w2, certs1, w3, hs, hcfg, hdb, hc, hrun⟩
  · rw [hrun] at hread; simp at hread
  · rw [hrun] at hread; simp at hread
  · rw [hrun] at hread; simp at hread
  · rw [hrun] at hread; simp at hread
  · have hopen : Event.GetUnexpiredCertificates (some db) (.ok certs) ∈
        (opening c s db1 certs1 : List (Event Time Err DB Signer Cert)) →
        db1 = db ∧ certs1 = certs := by
      intro hmem
      simp [opening] at hmem
      exact ⟨hmem.1.symm, hmem.2.symm⟩
    have key : db1 = db ∧ certs1 = certs := by
      rcases hrun with ⟨e, _, hrun⟩ | ⟨_, e, w5, _, hrun⟩ | ⟨_, records, w5, _, hrun⟩
      · rw [hrun] at hread
        rcases List.mem_append.1 hread with h | h
        · exact hopen h
        · exact absurd h (hloop _ _ _)
      · rw [hrun] at hread
        rcases List.mem_append.1 hread with h | h
        · rcases List.mem_append.1 h with h | h
          · exact hopen h
          · exact absurd h (hloop _ _ _)
        · simp at h
      · rw [hrun] at hread
        rcases List.mem_append.1 hread with h | h
        · rcases List.mem_append.1 h with h | h
          · exact hopen h
          · exact absurd h (hloop _ _ _)
        · rcases List.mem_cons.1 h with h | h
          · cases h
          · exact absurd h (hprint _)
    obtain ⟨rfl, rfl⟩ := key
    exact ⟨s, w2, w3, hs, hcfg, hdb, hc, hrun⟩

/-- A reading of the trace that ignores the construction of the signer, the store
reads and standard output sees only what happens between `opening` and `closing`. -/
theorem filterMap_frame {β : Type} (f : Event Time Err DB Signer Cert → Option β)
    (h1 : ∀ a b k i res, f (Event.NewSignerFromFile a b k i res) = none)
    (h2 : ∀ path res, f (Event.DBFromConfig path res) = none)
    (h3 : ∀ db res, f (Event.GetUnexpiredCertificates db res) = none)
    (h4 : ∀ db res, f (Event.GetUnexpiredOCSPs db res) = none)
    (h5 : ∀ out, f (Event.Printf out) = none)
    (c : Config) (s : Signer) (db : DB) (certs : List (CertificateRecord Time))
    (out : Option (Except Err (List (OCSPRecord Time))))
    (middle : List (Event Time Err DB Signer Cert)) :
    (opening c s db certs ++ middle ++ closing db out).filterMap f = middle.filterMap f := by
  have hclosing : (closing db out : List (Event Time Err DB Signer Cert)).filterMap f = [] := by
    cases out with
    | none => rfl
    | some res =>
      cases res with
      | error e => simp only [closing, List.filterMap_cons, List.filterMap_nil, h4]
      | ok records =>
        simp only [closing, List.filterMap_cons, h4, filterMap_printLoop f h5 records]
  simp only [opening, List.filterMap_append, List.filterMap_cons, List.filterMap_nil, h1, h2, h3,
    hclosing, List.nil_append, List.append_nil]

/-- The trace and the result of a run in which the store returned the list `certs`. -/
theorem ocspgenMain_trace_of_read (args : List String) (c : Config) (w : W) (db : DB)
    (certs : List (CertificateRecord Time))
    (hread : Event.GetUnexpiredCertificates (some db) (.ok certs) ∈
      (ocspgenMain env args c w).trace) :
    ∃ s w2 w3 out, (SignerFromConfig env c w).val = .ok s ∧ c.DBConfigFile ≠ "" ∧
      env.DBFromConfig c.DBConfigFile (SignerFromConfig env c w).world = (.ok db, w2) ∧
      env.GetUnexpiredCertificates (some db) w2 = (.ok certs, w3) ∧
      (ocspgenMain env args c w).trace =
        opening c s db certs ++ (signLoop env c s certs w3).trace ++ closing db out ∧
      ((∃ e, (signLoop env c s certs w3).val = some e ∧ out = none ∧
          (ocspgenMain env args c w).val = some e ∧
          (ocspgenMain env args c w).world = (signLoop env c s certs w3).world) ∨
       ((signLoop env c s certs w3).val = none ∧ ∃ res,
          out = some res ∧
          (env.GetUnexpiredOCSPs (some db) (signLoop env c s certs w3).world).1 = res ∧
          (ocspgenMain env args c w).world =
            (env.GetUnexpiredOCSPs (some db) (signLoop env c s certs w3).world).2 ∧
          (ocspgenMain env args c w).val =
            (match res with
             | .error e => some e
             | .ok _ => none))) := by
  obtain ⟨s, w2, w3, hs, hcfg, hdb, hc, hrun⟩ := ocspgenMain_of_read env args c w db certs hread
  rcases hrun with ⟨e, hl, hrun⟩ | ⟨hl, e, w5, ho, hrun⟩ | ⟨hl, records, w5, ho, hrun⟩
  · refine ⟨s, w2, w3, none, hs, hcfg, hdb, hc, ?_, Or.inl ⟨e, hl, rfl, ?_, ?_⟩⟩ <;> rw [hrun]
    simp only [closing, List.append_nil]
  · refine ⟨s, w2, w3, some (.error e), hs, hcfg, hdb, hc, ?_,
      Or.inr ⟨hl, .error e, rfl, ?_, ?_, ?_⟩⟩
    · rw [hrun]; rfl
    · rw [ho]
    · rw [hrun, ho]
    · rw [hrun]
  · refine ⟨s, w2, w3, some (.ok records), hs, hcfg, hdb, hc, ?_,
      Or.inr ⟨hl, .ok records, rfl, ?_, ?_, ?_⟩⟩
    · rw [hrun]; rfl
    · rw [ho]
    · rw [hrun, ho]
    · rw [hrun]

/-- Every store write of every run of `ocspgenMain` goes to the nil handle, never
to the handle of the store that was opened. -/
theorem ocspgenMain_upserts_nil (args : List String) (c : Config) (w : W) :
    ∀ u ∈ upserts (ocspgenMain env args c w).trace, u.1 = none := by
  rcases ocspgenMain_cases env args c w with
    ⟨e, _, hrun⟩ | ⟨s, _, _, hrun⟩ | ⟨s, e, w2, _, _, _, hrun⟩ |
    ⟨s, db, w2, e, w3, _, _, _, _, hrun⟩ | ⟨s, db, w2, certs, w3, _, _, _, _, hrun⟩
  · rw [hrun]; intro u hu; cases hu
  · rw [hrun]; intro u hu; cases hu
  · rw [hrun]; intro u hu; cases hu
  · rw [hrun]; intro u hu; cases hu
  · have hframe : ∀ out, upserts (opening c s db certs ++ (signLoop env c s certs w3).trace ++
        closing db out) = upserts (signLoop env c s certs w3).trace := fun out =>
      filterMap_frame _ (fun _ _ _ _ _ => rfl) (fun _ _ => rfl) (fun _ _ => rfl)
        (fun _ _ => rfl) (fun _ => rfl) c s db certs out _
    rcases hrun with ⟨e, _, hrun⟩ | ⟨_, e, w5, _, hrun⟩ | ⟨_, records, w5, _, hrun⟩
    · have h := hframe none
      simp only [closing, List.append_nil] at h
      rw [hrun, h]
      exact signLoop_upserts_nil env c s certs w3
    · have h := hframe (some (.error e))
      simp only [closing] at h
      rw [hrun, h]
      exact signLoop_upserts_nil env c s certs w3
    · have h := hframe (some (.ok records))
      simp only [closing] at h
      rw [hrun, h]
      exact signLoop_upserts_nil env c s certs w3

end RunLemmas

/-! ## Facts about the in-memory world -/

section MemoryFacts

/-- One day later in UTC is 86400 seconds later, also across the end of February
of a leap year and the end of a year; one month after 2024-01-31 is 2024-03-02, as
`AddDate` normalises. -/
theorem utcAddDate_examples :
    utcAddDate 1704067200 0 0 1 = 1704067200 + 86400 ∧
    utcAddDate 1709164800 0 0 1 = 1709164800 + 86400 ∧
    utcAddDate 1735689599 0 0 1 = 1735689599 + 86400 ∧
    utcAddDate 1706659200 0 1 0 = 1709337600 ∧
    daysFromCivil 1 1 1 * 86400 = -62135596800 := by
  decide

/-- Both PEM texts of the scenario parse. -/
theorem memWorld_parses :
    ∀ r ∈ memWorld.certificates, ∃ cert,
      (memEnv memPEMs []).ParseCertificatePEM r.PEM = .ok cert := by
  intro r hr
  simp only [memWorld, List.mem_cons, List.mem_singleton, List.not_mem_nil, or_false] at hr
  rcases hr with rfl | rfl
  · exact ⟨⟨10⟩, rfl⟩
  · exact ⟨⟨11⟩, rfl⟩

/-- No call of the signer fails in the run of the scenario. -/
theorem memWorld_signs :
    ∀ e, Except.error e ∉
      signOutcomes (ocspgenMain (memEnv memPEMs []) [] memConfig memWorld).trace := by
  have h : signOutcomes (ocspgenMain (memEnv memPEMs []) [] memConfig memWorld).trace =
      [.ok [48, 0, 0, 10], .ok [48, 0, 0, 11]] := by decide
  intro e he
  rw [h] at he
  simp at he

end MemoryFacts

/-! ## The specification, claim by claim -/

section Claims

variable {Time Err DB Signer Cert W : Type}

/-- C10: `SignerFromConfig` returns exactly what `ocsp.NewSignerFromFile` returns
for the CA file, the responder file, a key path and the interval of the
configuration, and calls nothing else.  The key path is the responder key when one
is configured, and then the general key plays no role; it is the general key when
the responder key is the empty string. -/
theorem SignerFromConfig_key_fallback (env : Env Time Err DB Signer Cert W) (c : Config)
    (w : W) :
    (c.ResponderKeyFile ≠ "" →
      SignerFromConfig env c w =
        ⟨(env.NewSignerFromFile c.CAFile c.ResponderFile c.ResponderKeyFile c.Interval w).1,
         (env.NewSignerFromFile c.CAFile c.ResponderFile c.ResponderKeyFile c.Interval w).2,
         [Event.NewSignerFromFile c.CAFile c.ResponderFile c.ResponderKeyFile c.Interval
           (env.NewSignerFromFile c.CAFile c.ResponderFile c.ResponderKeyFile c.Interval w).1]⟩ ∧
      ∀ k, SignerFromConfig env { c with KeyFile := k } w = SignerFromConfig env c w) ∧
    (c.ResponderKeyFile = "" →
      SignerFromConfig env c w =
        ⟨(env.NewSignerFromFile c.CAFile c.ResponderFile c.KeyFile c.Interval w).1,
         (env.NewSignerFromFile c.CAFile c.ResponderFile c.KeyFile c.Interval w).2,
         [Event.NewSignerFromFile c.CAFile c.ResponderFile c.KeyFile c.Interval
           (env.NewSignerFromFile c.CAFile c.ResponderFile c.KeyFile c.Interval w).1]⟩) := by
  refine ⟨fun h => ⟨?_, fun k => ?_⟩, fun h => ?_⟩
  · simp only [SignerFromConfig, if_neg h]
  · simp only [SignerFromConfig, if_neg h]
  · simp only [SignerFromConfig, h, if_true]

/-- C10, on the in-memory world: with the responder key `responder-key.pem`
configured the signer is built from it, not from `ca-key.pem`; without a
responder key it is built from `ca-key.pem`. -/
theorem SignerFromConfig_key_fallback_witness :
    (memConfig.ResponderKeyFile ≠ "" ∧
      (SignerFromConfig (memEnv memPEMs []) memConfig memWorld).val =
        .ok ⟨"ca.pem", "responder.pem", "responder-key.pem", 345600000000000⟩) ∧
    ({ memConfig with ResponderKeyFile := "" }.ResponderKeyFile = "" ∧
      (SignerFromConfig (memEnv memPEMs []) { memConfig with ResponderKeyFile := "" }
        memWorld).val = .ok ⟨"ca.pem", "responder.pem", "ca-key.pem", 345600000000000⟩) :=
  ⟨⟨by decide,
    congrArg Run.val
      ((SignerFromConfig_key_fallback (memEnv memPEMs []) memConfig memWorld).1 (by decide)).1⟩,
   ⟨rfl,
    congrArg Run.val
      ((SignerFromConfig_key_fallback (memEnv memPEMs [])
        { memConfig with ResponderKeyFile := "" } memWorld).2 rfl)⟩⟩

/-- C9: when the signer can be constructed and the configuration names no store
(`DBConfigFile` is empty), `ocspgenMain` returns nil after two interactions, the
construction of the signer and one logged error: no store is opened or read, the
signer is not called, nothing is written to the store or to standard output.  When
the signer cannot be constructed, `ocspgenMain` returns the construction error
after the failed construction and one logged message, whatever `DBConfigFile` is. -/
theorem ocspgenMain_without_store (env : Env Time Err DB Signer Cert W) (args : List String)
    (c : Config) (w : W) :
    (∀ s, (SignerFromConfig env c w).val = .ok s → c.DBConfigFile = "" →
      (ocspgenMain env args c w).val = none ∧
      (ocspgenMain env args c w).world = (SignerFromConfig env c w).world ∧
      (ocspgenMain env args c w).trace =
        [Event.NewSignerFromFile c.CAFile c.ResponderFile
          (if c.ResponderKeyFile = "" then c.KeyFile else c.ResponderKeyFile) c.Interval (.ok s),
         Event.Error "need DB config file (provide with -db-config)"] ∧
      storeAccesses (ocspgenMain env args c w).trace = [] ∧
      signRequests (ocspgenMain env args c w).trace = [] ∧
      upserts (ocspgenMain env args c w).trace = [] ∧
      printed (ocspgenMain env args c w).trace = []) ∧
    (∀ e, (SignerFromConfig env c w).val = .error e →
      (ocspgenMain env args c w).val = some e ∧
      (ocspgenMain env args c w).world = (SignerFromConfig env c w).world ∧
      (ocspgenMain env args c w).trace =
        [Event.NewSignerFromFile c.CAFile c.ResponderFile
          (if c.ResponderKeyFile = "" then c.KeyFile else c.ResponderKeyFile) c.Interval
          (.error e),
         Event.Critical "Unable to create OCSP signer: " e]) := by
  constructor
  · intro s hs hcfg
    have ht := SignerFromConfig_trace_ok env c w s hs
    have hrun : ocspgenMain env args c w =
        ⟨none, (SignerFromConfig env c w).world,
          [Event.NewSignerFromFile c.CAFile c.ResponderFile
            (if c.ResponderKeyFile = "" then c.KeyFile else c.ResponderKeyFile) c.Interval
            (.ok s),
           Event.Error "need DB config file (provide with -db-config)"]⟩ := by
      simp only [ocspgenMain, hs, ht, hcfg, if_true, List.cons_append, List.nil_append]
    rw [hrun]
    exact ⟨rfl, rfl, rfl, rfl, rfl, rfl, rfl⟩
  · intro e he
    have ht := SignerFromConfig_trace_error env c w e he
    have hrun : ocspgenMain env args c w =
        ⟨some e, (SignerFromConfig env c w).world,
          [Event.NewSignerFromFile c.CAFile c.ResponderFile
            (if c.ResponderKeyFile = "" then c.KeyFile else c.ResponderKeyFile) c.Interval
            (.error e),
           Event.Critical "Unable to create OCSP signer: " e]⟩ := by
      simp only [ocspgenMain, he, ht, List.cons_append, List.nil_append]
    rw [hrun]
    exact ⟨rfl, rfl, rfl⟩

/-- C9, on the in-memory world: without `-db-config` the run returns nil and
leaves the world, its clock and its OCSP table untouched; without a CA file it
returns the error of the signer construction although a store is configured. -/
theorem ocspgenMain_without_store_witness :
    ((SignerFromConfig (memEnv memPEMs []) { memConfig with DBConfigFile := "" } memWorld).val =
        .ok ⟨"ca.pem", "responder.pem", "responder-key.pem", 345600000000000⟩ ∧
      { memConfig with DBConfigFile := "" }.DBConfigFile = "" ∧
      (ocspgenMain (memEnv memPEMs []) [] { memConfig with DBConfigFile := "" } memWorld).val =
        none ∧
      (ocspgenMain (memEnv memPEMs []) [] { memConfig with DBConfigFile := "" } memWorld).world =
        memWorld) ∧
    ((SignerFromConfig (memEnv memPEMs []) { memConfig with CAFile := "" } memWorld).val =
        .error "open : no such file or directory" ∧
      (ocspgenMain (memEnv memPEMs []) [] { memConfig with CAFile := "" } memWorld).val =
        some "open : no such file or directory") :=
  ⟨⟨rfl, rfl,
    ((ocspgenMain_without_store (memEnv memPEMs []) [] { memConfig with DBConfigFile := "" }
      memWorld).1 _ rfl rfl).1,
    ((ocspgenMain_without_store (memEnv memPEMs []) [] { memConfig with DBConfigFile := "" }
      memWorld).1 _ rfl rfl).2.1⟩,
   ⟨rfl,
    ((ocspgenMain_without_store (memEnv memPEMs []) [] { memConfig with CAFile := "" }
      memWorld).2 _ rfl).1⟩⟩

/-- C3: a run of `ocspgenMain` that returns nil either had no store configured and
wrote nothing, or read the unexpired OCSP records exactly once, from the opened
store, and wrote to standard output, for each record of the returned list and in
the order of that list, the padded standard base64 encoding of the record body
followed by one line feed, and nothing else.  The encoding contains no line feed,
so that the output has one line per record. -/
theorem stdout_is_base64_lines (env : Env Time Err DB Signer Cert W) (args : List String)
    (c : Config) (w : W) (h : (ocspgenMain env args c w).val = none) :
    (c.DBConfigFile = "" ∧ ocspReads (ocspgenMain env args c w).trace = [] ∧
      printed (ocspgenMain env args c w).trace = []) ∨
    (∃ db records,
      ocspReads (ocspgenMain env args c w).trace = [(some db, .ok records)] ∧
      printed (ocspgenMain env args c w).trace =
        records.map (fun r => EncodeToString r.Body ++ "\n") ∧
      stdout (ocspgenMain env args c w).trace =
        String.join (records.map (fun r => EncodeToString r.Body ++ "\n")) ∧
      ∀ r ∈ records, '\n' ∉ (EncodeToString r.Body).toList) := by
  rcases ocspgenMain_cases env args c w with
    ⟨e, _, hrun⟩ | ⟨s, _, hcfg, hrun⟩ | ⟨s, e, w2, _, _, _, hrun⟩ |
    ⟨s, db, w2, e, w3, _, _, _, _, hrun⟩ | ⟨s, db, w2, certs, w3, _, _, _, _, hrun⟩
  · rw [hrun] at h; cases h
  · left
    rw [hrun]
    exact ⟨hcfg, rfl, rfl⟩
  · rw [hrun] at h; cases h
  · rw [hrun] at h; cases h
  · rcases hrun with ⟨e, _, hrun⟩ | ⟨_, e, w5, _, hrun⟩ | ⟨_, records, w5, _, hrun⟩
    · rw [hrun] at h; cases h
    · rw [hrun] at h; cases h
    · right
      have hreads : ocspReads (signLoop env c s certs w3).trace = [] :=
        filterMap_signLoop env c s _ (fun _ _ => rfl) (fun _ _ _ => rfl) (fun _ => rfl)
          (fun _ _ _ _ _ => rfl) (fun _ _ => rfl) certs w3
      have hprinted : printed (ocspgenMain env args c w).trace =
          records.map (fun r => EncodeToString r.Body ++ "\n") := by
        have h1 := printed_signLoop env c s certs w3
        have h2 := @printed_printLoop Time Err DB Signer Cert records
        simp only [printed] at h1 h2
        rw [hrun]
        simp only [printed, opening, List.filterMap_append, List.filterMap_cons,
          List.filterMap_nil, Event.printed?, h1, h2, List.nil_append]
      refine ⟨db, records, ?_, hprinted, ?_, ?_⟩
      · have h3 := @filterMap_printLoop Time Err DB Signer Cert _ Event.ocspRead?
          (fun _ => rfl) records
        simp only [ocspReads] at hreads
        rw [hrun]
        simp only [ocspReads, opening, List.filterMap_append, List.filterMap_cons,
          List.filterMap_nil, Event.ocspRead?, hreads, h3, List.nil_append]
      · simp only [stdout, hprinted]
      · intro r _
        exact EncodeToChars_no_newline r.Body

/-- C3, on the in-memory world: the run returns nil, the store returns the one
unexpired OCSP record with body `30 00 00 0a`, and standard output is the line
`MAAACg==`. -/
theorem stdout_is_base64_lines_witness :
    (ocspgenMain (memEnv memPEMs []) [] memConfig memWorld).val = none ∧
    ((memConfig.DBConfigFile = "" ∧
        ocspReads (ocspgenMain (memEnv memPEMs []) [] memConfig memWorld).trace = [] ∧
        printed (ocspgenMain (memEnv memPEMs []) [] memConfig memWorld).trace = []) ∨
      (∃ db records,
        ocspReads (ocspgenMain (memEnv memPEMs []) [] memConfig memWorld).trace =
          [(some db, .ok records)] ∧
        printed (ocspgenMain (memEnv memPEMs []) [] memConfig memWorld).trace =
          records.map (fun r => EncodeToString r.Body ++ "\n") ∧
        stdout (ocspgenMain (memEnv memPEMs []) [] memConfig memWorld).trace =
          String.join (records.map (fun r => EncodeToString r.Body ++ "\n")) ∧
        ∀ r ∈ records, '\n' ∉ (EncodeToString r.Body).toList)) ∧
    stdout (ocspgenMain (memEnv memPEMs []) [] memConfig memWorld).trace = "MAAACg==\n" :=
  ⟨by decide,
   stdout_is_base64_lines (memEnv memPEMs []) [] memConfig memWorld (by decide),
   by decide⟩

/-- C2: in a run in which the store returned the list `certs`, the requests passed
to the signer are, one by one and in order, those of the records of a beginning of
`certs`; each carries the status of the configuration and the certificate parsed
from the PEM of its record.  Nothing is assumed about the status, the reason or the
revocation time stored in the records. -/
theorem signRequest_status_from_config (env : Env Time Err DB Signer Cert W)
    (args : List String) (c : Config) (w : W) (db : DB) (certs : List (CertificateRecord Time))
    (hread : Event.GetUnexpiredCertificates (some db) (.ok certs) ∈
      (ocspgenMain env args c w).trace) :
    ∃ handled, handled <+: certs ∧
      List.Forall₂ (fun r req => req.Status = c.Status ∧
          env.ParseCertificatePEM r.PEM = .ok req.Certificate)
        handled (signRequests (ocspgenMain env args c w).trace) := by
  obtain ⟨s, w2, w3, out, _, _, _, _, htrace, _⟩ :=
    ocspgenMain_trace_of_read env args c w db certs hread
  have hframe : signRequests (ocspgenMain env args c w).trace =
      signRequests (signLoop env c s certs w3).trace := by
    rw [htrace]
    exact filterMap_frame _ (fun _ _ _ _ _ => rfl) (fun _ _ => rfl) (fun _ _ => rfl)
      (fun _ _ => rfl) (fun _ => rfl) c s db certs out _
  rw [hframe]
  exact signLoop_signRequests env c s certs w3

/-- C2, on the in-memory world: the store returns the good record A and the revoked
record B, and both requests carry the configured status `good`. -/
theorem signRequest_status_from_config_witness :
    Event.GetUnexpiredCertificates (some "db-config.json") (.ok memWorld.certificates) ∈
      (ocspgenMain (memEnv memPEMs []) [] memConfig memWorld).trace ∧
    (∃ handled, handled <+: memWorld.certificates ∧
      List.Forall₂ (fun r req => req.Status = memConfig.Status ∧
          (memEnv memPEMs []).ParseCertificatePEM r.PEM = .ok req.Certificate)
        handled (signRequests (ocspgenMain (memEnv memPEMs []) [] memConfig memWorld).trace)) ∧
    (signRequests (ocspgenMain (memEnv memPEMs []) [] memConfig memWorld).trace).map
      (fun req => (req.Certificate.SerialNumber, req.Status)) = [(10, "good"), (11, "good")] :=
  ⟨by decide,
   signRequest_status_from_config (memEnv memPEMs []) [] memConfig memWorld "db-config.json"
     memWorld.certificates (by decide),
   by decide⟩

/-- C4: in a run in which the store returned the list `certs`, every PEM of `certs`
parses and no call of the signer fails, the loop makes one complete pass per record,
in the order of `certs`: parse, sign, read the clock, write the OCSP record.  The
write of a record has the decimal serial number of its parsed certificate, the bytes
the signer returned for that certificate, and the clock reading of that pass shifted
by `AddDate(0, 0, 1)`; the interval of the configuration does not occur in it.  The
handle of every write is nil. -/
theorem upsert_per_record (env : Env Time Err DB Signer Cert W) (args : List String)
    (c : Config) (w : W) (db : DB) (certs : List (CertificateRecord Time))
    (hread : Event.GetUnexpiredCertificates (some db) (.ok certs) ∈
      (ocspgenMain env args c w).trace)
    (hparse : ∀ r ∈ certs, ∃ cert, env.ParseCertificatePEM r.PEM = .ok cert)
    (hsign : ∀ e, Except.error e ∉ signOutcomes (ocspgenMain env args c w).trace) :
    ∃ (s : Signer) (steps : List (Step Time Err Cert))
      (out : Option (Except Err (List (OCSPRecord Time)))),
      List.Forall₂ (fun r st => env.ParseCertificatePEM r.PEM = .ok st.cert) certs steps ∧
      (ocspgenMain env args c w).trace =
        opening c s db certs ++ passes env c s certs steps ++ closing db out ∧
      upserts (ocspgenMain env args c w).trace =
        steps.map (fun st => (none, bigIntString (env.SerialNumber st.cert), st.resp,
          env.AddDate st.now 0 0 1)) ∧
      signRequests (ocspgenMain env args c w).trace =
        List.zipWith (fun r st => signRequest env c r st.cert) certs steps ∧
      signOutcomes (ocspgenMain env args c w).trace =
        steps.map (fun st => Except.ok st.resp) ∧
      clockReads (ocspgenMain env args c w).trace = steps.map (fun st => st.now) := by
  obtain ⟨s, w2, w3, out, _, _, _, _, htrace, _⟩ :=
    ocspgenMain_trace_of_read env args c w db certs hread
  have hframe : signOutcomes (ocspgenMain env args c w).trace =
      signOutcomes (signLoop env c s certs w3).trace := by
    rw [htrace]
    exact filterMap_frame _ (fun _ _ _ _ _ => rfl) (fun _ _ => rfl) (fun _ _ => rfl)
      (fun _ _ => rfl) (fun _ => rfl) c s db certs out _
  have hval : (signLoop env c s certs w3).val = none := by
    cases hl : (signLoop env c s certs w3).val with
    | none => rfl
    | some e =>
      have := signLoop_error_of_parsed env c s certs w3 e hparse hl
      rw [← hframe] at this
      exact absurd this (hsign e)
  obtain ⟨steps, hf, hpasses⟩ := signLoop_passes env c s certs w3 hval
  rw [hpasses] at htrace
  refine ⟨s, steps, out, hf, htrace, ?_, ?_, ?_, ?_⟩
  · rw [htrace, ← upserts_passes env c s hf]
    exact filterMap_frame _ (fun _ _ _ _ _ => rfl) (fun _ _ => rfl) (fun _ _ => rfl)
      (fun _ _ => rfl) (fun _ => rfl) c s db certs out _
  · rw [htrace, ← signRequests_passes env c s certs steps]
    exact filterMap_frame _ (fun _ _ _ _ _ => rfl) (fun _ _ => rfl) (fun _ _ => rfl)
      (fun _ _ => rfl) (fun _ => rfl) c s db certs out _
  · rw [htrace, ← signOutcomes_passes env c s hf]
    exact filterMap_frame _ (fun _ _ _ _ _ => rfl) (fun _ _ => rfl) (fun _ _ => rfl)
      (fun _ _ => rfl) (fun _ => rfl) c s db certs out _
  · rw [htrace, ← clockReads_passes env c s hf]
    exact filterMap_frame _ (fun _ _ _ _ _ => rfl) (fun _ _ => rfl) (fun _ _ => rfl)
      (fun _ _ => rfl) (fun _ => rfl) c s db certs out _

/-- C4, on the in-memory world: two records, two writes, for the serial numbers
`10` and `11`, expiring one day after the clock readings 2024-01-01T00:00:00 and
2024-01-01T00:00:01 although the configured interval is 96 hours. -/
theorem upsert_per_record_witness :
    Event.GetUnexpiredCertificates (some "db-config.json") (.ok memWorld.certificates) ∈
      (ocspgenMain (memEnv memPEMs []) [] memConfig memWorld).trace ∧
    (∀ r ∈ memWorld.certificates, ∃ cert,
      (memEnv memPEMs []).ParseCertificatePEM r.PEM = .ok cert) ∧
    (∀ e, Except.error e ∉
      signOutcomes (ocspgenMain (memEnv memPEMs []) [] memConfig memWorld).trace) ∧
    (∃ (s : MemSigner) (steps : List (Step Int String MemCert))
      (out : Option (Except String (List (OCSPRecord Int)))),
      List.Forall₂ (fun r st => (memEnv memPEMs []).ParseCertificatePEM r.PEM = .ok st.cert)
        memWorld.certificates steps ∧
      (ocspgenMain (memEnv memPEMs []) [] memConfig memWorld).trace =
        opening memConfig s "db-config.json" memWorld.certificates ++
          passes (memEnv memPEMs []) memConfig s memWorld.certificates steps ++
          closing "db-config.json" out ∧
      upserts (ocspgenMain (memEnv memPEMs []) [] memConfig memWorld).trace =
        steps.map (fun st => (none, bigIntString ((memEnv memPEMs []).SerialNumber st.cert),
          st.resp, (memEnv memPEMs []).AddDate st.now 0 0 1)) ∧
      signRequests (ocspgenMain (memEnv memPEMs []) [] memConfig memWorld).trace =
        List.zipWith (fun r st => signRequest (memEnv memPEMs []) memConfig r st.cert)
          memWorld.certificates steps ∧
      signOutcomes (ocspgenMain (memEnv memPEMs []) [] memConfig memWorld).trace =
        steps.map (fun st => Except.ok st.resp) ∧
      clockReads (ocspgenMain (memEnv memPEMs []) [] memConfig memWorld).trace =
        steps.map (fun st => st.now)) ∧
    upserts (ocspgenMain (memEnv memPEMs []) [] memConfig memWorld).trace =
      [(none, "10", [48, 0, 0, 10], 1704153600), (none, "11", [48, 0, 0, 11], 1704153601)] :=
  ⟨by decide, memWorld_parses, memWorld_signs,
   upsert_per_record (memEnv memPEMs []) [] memConfig memWorld "db-config.json"
     memWorld.certificates (by decide) memWorld_parses memWorld_signs,
   by decide⟩

/-- C7: in a run in which the store returned `done ++ r :: rest` and the answers
of the signer begin with one success per record of `done` followed by the error `e`
(nothing is assumed about what happens after that answer), the failing call is the
one for the record `r`, whose PEM parsed, and `ocspgenMain` returns `e`.  After the
complete passes over `done` the trace holds the parse of `r`, the failing call and
one logged message, and ends there: the failing answer is the last answer of the
signer, there is no store write for `r`, no parse, signer call or store write for a
record of `rest`, no read of the OCSP records and nothing on standard output. -/
theorem sign_error_aborts (env : Env Time Err DB Signer Cert W) (args : List String)
    (c : Config) (w : W) (db : DB) (done : List (CertificateRecord Time))
    (r : CertificateRecord Time) (rest : List (CertificateRecord Time)) (e : Err)
    (bodies : List Bytes)
    (hread : Event.GetUnexpiredCertificates (some db) (.ok (done ++ r :: rest)) ∈
      (ocspgenMain env args c w).trace)
    (hlen : bodies.length = done.length)
    (hsign : bodies.map Except.ok ++ [Except.error e] <+:
      signOutcomes (ocspgenMain env args c w).trace) :
    (ocspgenMain env args c w).val = some e ∧
    ∃ (s : Signer) (steps : List (Step Time Err Cert)) (cert : Cert),
      List.Forall₂ (fun r' st => env.ParseCertificatePEM r'.PEM = .ok st.cert) done steps ∧
      env.ParseCertificatePEM r.PEM = .ok cert ∧
      (ocspgenMain env args c w).trace =
        opening c s db (done ++ r :: rest) ++ passes env c s done steps ++
          [Event.ParseCertificatePEM r.PEM (.ok cert),
           Event.Sign s (signRequest env c r cert) (.error e),
           Event.Critical "Unable to sign OCSP response: " e] ∧
      upserts (ocspgenMain env args c w).trace =
        steps.map (fun st => (none, bigIntString (env.SerialNumber st.cert), st.resp,
          env.AddDate st.now 0 0 1)) ∧
      parsedPEMs (ocspgenMain env args c w).trace = (done ++ [r]).map (fun r' => r'.PEM) ∧
      signRequests (ocspgenMain env args c w).trace =
        List.zipWith (fun r' st => signRequest env c r' st.cert) done steps ++
          [signRequest env c r cert] ∧
      signOutcomes (ocspgenMain env args c w).trace =
        steps.map (fun st => Except.ok st.resp) ++ [Except.error e] ∧
      ocspReads (ocspgenMain env args c w).trace = [] ∧
      printed (ocspgenMain env args c w).trace = [] := by
  obtain ⟨s, w2, w3, out, _, _, _, _, htrace, hres⟩ :=
    ocspgenMain_trace_of_read env args c w db (done ++ r :: rest) hread
  have hframe : signOutcomes (ocspgenMain env args c w).trace =
      signOutcomes (signLoop env c s (done ++ r :: rest) w3).trace := by
    rw [htrace]
    exact filterMap_frame _ (fun _ _ _ _ _ => rfl) (fun _ _ => rfl) (fun _ _ => rfl)
      (fun _ _ => rfl) (fun _ => rfl) c s db _ out _
  rw [hframe] at hsign
  obtain ⟨hdone, cert, w1, hp, hs⟩ :=
    signLoop_of_signOutcomes env c s done r rest e bodies w3 hlen hsign
  obtain ⟨steps, hf, hpasses⟩ := signLoop_passes env c s done w3 hdone
  have hloop : signLoop env c s (done ++ r :: rest) w3 =
      ⟨some e, w1, passes env c s done steps ++
        [Event.ParseCertificatePEM r.PEM (.ok cert),
         Event.Sign s (signRequest env c r cert) (.error e),
         Event.Critical "Unable to sign OCSP response: " e]⟩ := by
    rw [signLoop_append_of_none env c s done (r :: rest) w3 hdone,
      signLoop_sign_error env c s r rest _ w1 cert e hp hs, hpasses]
  rw [hloop] at htrace hres
  rcases hres with ⟨e1, he1, hout, hval, _⟩ | ⟨hnone, _⟩
  swap
  · cases hnone
  cases he1
  subst hout
  simp only [closing, List.append_nil] at htrace
  refine ⟨hval, s, steps, cert, hf, hp, by rw [htrace, List.append_assoc], ?_, ?_, ?_, ?_, ?_,
    ?_⟩
  · have h := upserts_passes env c s hf
    simp only [upserts] at h
    rw [htrace]
    simp only [upserts, opening, List.filterMap_append, List.filterMap_cons, List.filterMap_nil,
      Event.upsert?, h, List.nil_append, List.append_nil]
  · have h := parsedPEMs_passes env c s hf
    simp only [parsedPEMs] at h
    rw [htrace]
    simp only [parsedPEMs, opening, List.filterMap_append, List.filterMap_cons,
      List.filterMap_nil, Event.parsedPEM?, h, List.nil_append, List.map_append, List.map_cons,
      List.map_nil]
  · have h := signRequests_passes env c s done steps
    simp only [signRequests] at h
    rw [htrace]
    simp only [signRequests, opening, List.filterMap_append, List.filterMap_cons,
      List.filterMap_nil, Event.signRequest?, h, List.nil_append]
  · have h := signOutcomes_passes env c s hf
    simp only [signOutcomes] at h
    rw [htrace]
    simp only [signOutcomes, opening, List.filterMap_append, List.filterMap_cons,
      List.filterMap_nil, Event.signOutcome?, h, List.nil_append]
  · have h : ocspReads (passes env c s done steps) = [] := by
      rw [← hpasses]
      exact filterMap_signLoop env c s _ (fun _ _ => rfl) (fun _ _ _ => rfl) (fun _ => rfl)
        (fun _ _ _ _ _ => rfl) (fun _ _ => rfl) done w3
    simp only [ocspReads] at h
    rw [htrace]
    simp only [ocspReads, opening, List.filterMap_append, List.filterMap_cons,
      List.filterMap_nil, Event.ocspRead?, h, List.nil_append]
  · have h := printed_passes env c s done steps
    simp only [printed] at h
    rw [htrace]
    simp only [printed, opening, List.filterMap_append, List.filterMap_cons, List.filterMap_nil,
      Event.printed?, h, List.nil_append]

/-- C7, on the in-memory world with three unexpired certificates: the signer
succeeds for certificate 10 and fails for certificate 11, and certificate 12 comes
after it.  The run returns that error; it has parsed `PEM A` and `PEM B` only,
called the signer twice, written one OCSP record, for serial number `10`, and
nothing to standard output. -/
theorem sign_error_aborts_witness :
    Event.GetUnexpiredCertificates (some "db-config.json")
        (.ok ([⟨"10", "good", 0, -62135596800, "PEM A"⟩] ++
          ⟨"11", "revoked", 1, 1703980800, "PEM B"⟩ ::
            [⟨"12", "good", 0, -62135596800, "PEM C"⟩])) ∈
      (ocspgenMain (memEnv memThreePEMs [11]) [] memConfig memThree).trace ∧
    [[48, 0, 0, 10]].map Except.ok ++ [Except.error "signing failed"] <+:
      signOutcomes (ocspgenMain (memEnv memThreePEMs [11]) [] memConfig memThree).trace ∧
    (memEnv memThreePEMs [11]).ParseCertificatePEM "PEM C" = .ok ⟨12⟩ ∧
    (ocspgenMain (memEnv memThreePEMs [11]) [] memConfig memThree).val =
      some "signing failed" ∧
    parsedPEMs (ocspgenMain (memEnv memThreePEMs [11]) [] memConfig memThree).trace =
      ["PEM A", "PEM B"] ∧
    (signRequests (ocspgenMain (memEnv memThreePEMs [11]) [] memConfig memThree).trace).map
      (fun req => req.Certificate.SerialNumber) = [10, 11] ∧
    upserts (ocspgenMain (memEnv memThreePEMs [11]) [] memConfig memThree).trace =
      [(none, "10", [48, 0, 0, 10], 1704153600)] ∧
    printed (ocspgenMain (memEnv memThreePEMs [11]) [] memConfig memThree).trace = [] :=
  ⟨by decide, by decide, by decide,
   (sign_error_aborts (memEnv memThreePEMs [11]) [] memConfig memThree "db-config.json"
     [⟨"10", "good", 0, -62135596800, "PEM A"⟩] ⟨"11", "revoked", 1, 1703980800, "PEM B"⟩
     [⟨"12", "good", 0, -62135596800, "PEM C"⟩]
     "signing failed" [[48, 0, 0, 10]] (by decide) rfl (by decide)).1,
   by decide, by decide, by decide, by decide⟩

/-- C6 as stated fails: in the in-memory world whose signer refuses certificate 10
and whose parser rejects `PEM B`, the second record is the first whose PEM fails to
parse, yet the run returns the error of the signer, not the parse error, and the
record before the unparsable one has not been written. -/
theorem parse_error_claim_counterexample :
    Event.GetUnexpiredCertificates (some "db-config.json")
        (.ok ([⟨"10", "good", 0, -62135596800, "PEM A"⟩] ++
          ⟨"11", "revoked", 1, 1703980800, "PEM B"⟩ :: [])) ∈
      (ocspgenMain (memEnv [("PEM A", 10)] [10]) [] memConfig memWorld).trace ∧
    (memEnv [("PEM A", 10)] [10]).ParseCertificatePEM "PEM A" = .ok ⟨10⟩ ∧
    (memEnv [("PEM A", 10)] [10]).ParseCertificatePEM "PEM B" =
      .error "failed to parse certificate" ∧
    (ocspgenMain (memEnv [("PEM A", 10)] [10]) [] memConfig memWorld).val =
      some "signing failed" ∧
    (ocspgenMain (memEnv [("PEM A", 10)] [10]) [] memConfig memWorld).val ≠
      some "failed to parse certificate" ∧
    upserts (ocspgenMain (memEnv [("PEM A", 10)] [10]) [] memConfig memWorld).trace = [] := by
  decide

/-- C6, amended: in a run in which the store returned `done ++ r :: rest`, every PEM
of `done` parses, the PEM of `r` fails to parse with the error `e`, and no call of
the signer fails, `ocspgenMain` returns `e`.  The trace holds the complete passes
over `done`, then the failed parse of `r` and one logged message, and ends there: no
signer call and no store write for `r` or a record of `rest`, nothing on standard
output.  The passes over `done`, and the world the run leaves, are those of the loop
run over `done` alone in the world left by the read of the certificates. -/
theorem parse_error_aborts (env : Env Time Err DB Signer Cert W) (args : List String)
    (c : Config) (w : W) (db : DB) (done : List (CertificateRecord Time))
    (r : CertificateRecord Time) (rest : List (CertificateRecord Time)) (e : Err)
    (hread : Event.GetUnexpiredCertificates (some db) (.ok (done ++ r :: rest)) ∈
      (ocspgenMain env args c w).trace)
    (hfirst : ∀ r' ∈ done, ∃ cert, env.ParseCertificatePEM r'.PEM = .ok cert)
    (hfail : env.ParseCertificatePEM r.PEM = .error e)
    (hsign : ∀ e', Except.error e' ∉ signOutcomes (ocspgenMain env args c w).trace) :
    (ocspgenMain env args c w).val = some e ∧
    ∃ (s : Signer) (steps : List (Step Time Err Cert)),
      List.Forall₂ (fun r' st => env.ParseCertificatePEM r'.PEM = .ok st.cert) done steps ∧
      (ocspgenMain env args c w).trace =
        opening c s db (done ++ r :: rest) ++ passes env c s done steps ++
          [Event.ParseCertificatePEM r.PEM (.error e),
           Event.Critical "Unable to parse certificate: " e] ∧
      signRequests (ocspgenMain env args c w).trace =
        List.zipWith (fun r' st => signRequest env c r' st.cert) done steps ∧
      signOutcomes (ocspgenMain env args c w).trace =
        steps.map (fun st => Except.ok st.resp) ∧
      upserts (ocspgenMain env args c w).trace =
        steps.map (fun st => (none, bigIntString (env.SerialNumber st.cert), st.resp,
          env.AddDate st.now 0 0 1)) ∧
      printed (ocspgenMain env args c w).trace = [] ∧
      ∃ w2 w3,
        env.DBFromConfig c.DBConfigFile (SignerFromConfig env c w).world = (.ok db, w2) ∧
        env.GetUnexpiredCertificates (some db) w2 = (.ok (done ++ r :: rest), w3) ∧
        (signLoop env c s done w3).val = none ∧
        (signLoop env c s done w3).trace = passes env c s done steps ∧
        (ocspgenMain env args c w).world = (signLoop env c s done w3).world := by
  obtain ⟨s, w2, w3, out, _, _, hdb, hc, htrace, hres⟩ :=
    ocspgenMain_trace_of_read env args c w db (done ++ r :: rest) hread
  have hframe : signOutcomes (ocspgenMain env args c w).trace =
      signOutcomes (signLoop env c s (done ++ r :: rest) w3).trace := by
    rw [htrace]
    exact filterMap_frame _ (fun _ _ _ _ _ => rfl) (fun _ _ => rfl) (fun _ _ => rfl)
      (fun _ _ => rfl) (fun _ => rfl) c s db _ out _
  have hdone : (signLoop env c s done w3).val = none := by
    cases hl : (signLoop env c s done w3).val with
    | none => rfl
    | some e1 =>
      have h1 := signLoop_error_of_parsed env c s done w3 e1 hfirst hl
      rw [← signLoop_append_of_some env c s done (r :: rest) w3 e1 hl, ← hframe] at h1
      exact absurd h1 (hsign e1)
  obtain ⟨steps, hf, hpasses⟩ := signLoop_passes env c s done w3 hdone
  have hloop : signLoop env c s (done ++ r :: rest) w3 =
      ⟨some e, (signLoop env c s done w3).world, passes env c s done steps ++
        [Event.ParseCertificatePEM r.PEM (.error e),
         Event.Critical "Unable to parse certificate: " e]⟩ := by
    rw [signLoop_append_of_none env c s done (r :: rest) w3 hdone,
      signLoop_parse_error env c s r rest _ e hfail, hpasses]
  rw [hloop] at htrace hres
  rcases hres with ⟨e1, he1, hout, hval, hworld⟩ | ⟨hnone, _⟩
  swap
  · cases hnone
  cases he1
  subst hout
  simp only [closing, List.append_nil] at htrace
  refine ⟨hval, s, steps, hf, by rw [htrace, List.append_assoc], ?_, ?_, ?_, ?_,
    w2, w3, hdb, hc, hdone, hpasses, hworld⟩
  · have h := signRequests_passes env c s done steps
    simp only [signRequests] at h
    rw [htrace]
    simp only [signRequests, opening, List.filterMap_append, List.filterMap_cons,
      List.filterMap_nil, Event.signRequest?, h, List.nil_append, List.append_nil]
  · have h := signOutcomes_passes env c s hf
    simp only [signOutcomes] at h
    rw [htrace]
    simp only [signOutcomes, opening, List.filterMap_append, List.filterMap_cons,
      List.filterMap_nil, Event.signOutcome?, h, List.nil_append, List.append_nil]
  · have h := upserts_passes env c s hf
    simp only [upserts] at h
    rw [htrace]
    simp only [upserts, opening, List.filterMap_append, List.filterMap_cons, List.filterMap_nil,
      Event.upsert?, h, List.nil_append, List.append_nil]
  · have h := printed_passes env c s done steps
    simp only [printed] at h
    rw [htrace]
    simp only [printed, opening, List.filterMap_append, List.filterMap_cons, List.filterMap_nil,
      Event.printed?, h, List.nil_append]

/-- C6 amended, on the in-memory world whose parser rejects `PEM B`: the run
returns the parse error after one signer call and one store write, both for
certificate 10, and writes nothing to standard output. -/
theorem parse_error_aborts_witness :
    Event.GetUnexpiredCertificates (some "db-config.json")
        (.ok ([⟨"10", "good", 0, -62135596800, "PEM A"⟩] ++
          ⟨"11", "revoked", 1, 1703980800, "PEM B"⟩ :: [])) ∈
      (ocspgenMain (memEnv [("PEM A", 10)] []) [] memConfig memWorld).trace ∧
    (∀ r' ∈ [(⟨"10", "good", 0, -62135596800, "PEM A"⟩ : CertificateRecord Int)], ∃ cert,
      (memEnv [("PEM A", 10)] []).ParseCertificatePEM r'.PEM = .ok cert) ∧
    (memEnv [("PEM A", 10)] []).ParseCertificatePEM "PEM B" =
      .error "failed to parse certificate" ∧
    (∀ e', Except.error e' ∉
      signOutcomes (ocspgenMain (memEnv [("PEM A", 10)] []) [] memConfig memWorld).trace) ∧
    (ocspgenMain (memEnv [("PEM A", 10)] []) [] memConfig memWorld).val =
      some "failed to parse certificate" ∧
    (signRequests (ocspgenMain (memEnv [("PEM A", 10)] []) [] memConfig memWorld).trace).map
      (fun req => req.Certificate.SerialNumber) = [10] ∧
    upserts (ocspgenMain (memEnv [("PEM A", 10)] []) [] memConfig memWorld).trace =
      [(none, "10", [48, 0, 0, 10], 1704153600)] ∧
    printed (ocspgenMain (memEnv [("PEM A", 10)] []) [] memConfig memWorld).trace = [] :=
  have hfirst : ∀ r' ∈ [(⟨"10", "good", 0, -62135596800, "PEM A"⟩ : CertificateRecord Int)],
      ∃ cert, (memEnv [("PEM A", 10)] []).ParseCertificatePEM r'.PEM = .ok cert := by
    intro r' hr'
    rw [List.mem_singleton.1 hr']
    exact ⟨⟨10⟩, rfl⟩
  have hsign : ∀ e', Except.error e' ∉
      signOutcomes (ocspgenMain (memEnv [("PEM A", 10)] []) [] memConfig memWorld).trace := by
    have h : signOutcomes (ocspgenMain (memEnv [("PEM A", 10)] []) [] memConfig memWorld).trace =
        [.ok [48, 0, 0, 10]] := by decide
    intro e' he'
    rw [h] at he'
    simp at he'
  ⟨by decide, hfirst, rfl, hsign,
   (parse_error_aborts (memEnv [("PEM A", 10)] []) [] memConfig memWorld "db-config.json"
     [⟨"10", "good", 0, -62135596800, "PEM A"⟩] ⟨"11", "revoked", 1, 1703980800, "PEM B"⟩ []
     "failed to parse certificate" (by decide) hfirst rfl hsign).1,
   by decide, by decide, by decide⟩

/-- C1 fails on the code: in the scenario of section 8 of the spec, record B is
stored as revoked with reason 1 and revocation time 2023-12-31T00:00:00, and the
request passed to the signer for certificate 11 has reason 0 and the zero time.
The condition of line 68 is `!=`: the stored reason and revocation time are copied
for every record that is not revoked (as for record A here) and dropped for every
revoked one. -/
theorem revoked_record_loses_reason :
    memWorld.certificates =
      [⟨"10", "good", 0, -62135596800, "PEM A"⟩, ⟨"11", "revoked", 1, 1703980800, "PEM B"⟩] ∧
    signRequests (ocspgenMain (memEnv memPEMs []) [] memConfig memWorld).trace =
      [⟨⟨10⟩, "good", 0, -62135596800⟩, ⟨⟨11⟩, "good", 0, -62135596800⟩] ∧
    signRequest (memEnv memPEMs []) memConfig ⟨"11", "revoked", 1, 1703980800, "PEM B"⟩ ⟨11⟩ =
      ⟨⟨11⟩, "good", 0, (memEnv memPEMs []).zeroTime⟩ ∧
    signRequest (memEnv memPEMs []) memConfig ⟨"12", "good", 4, 1703980800, "PEM C"⟩ ⟨12⟩ =
      ⟨⟨12⟩, "good", 4, 1703980800⟩ := by
  decide

/-- C5 fails on the code: in the scenario of section 8 of the spec the run returns
nil with a store configured, the certificates are read through the handle of the
opened store, but both writes go to the nil handle and fail, and their errors are
dropped.  After the run the store is unchanged: no OCSP record for serial number
`11`, and for `10` only the older record, whose expiration is not the signing time
plus one day.  The same write on the handle of the opened store succeeds and stores
the record. -/
theorem nil_handle_write_is_lost :
    memConfig.DBConfigFile ≠ "" ∧
    (ocspgenMain (memEnv memPEMs []) [] memConfig memWorld).val = none ∧
    Event.GetUnexpiredCertificates (some "db-config.json") (.ok memWorld.certificates) ∈
      (ocspgenMain (memEnv memPEMs []) [] memConfig memWorld).trace ∧
    upserts (ocspgenMain (memEnv memPEMs []) [] memConfig memWorld).trace =
      [(none, "10", [48, 0, 0, 10], 1704153600), (none, "11", [48, 0, 0, 11], 1704153601)] ∧
    upsertOutcomes (ocspgenMain (memEnv memPEMs []) [] memConfig memWorld).trace =
      [some "nil database handle", some "nil database handle"] ∧
    (ocspgenMain (memEnv memPEMs []) [] memConfig memWorld).world.ocsps =
      [⟨"10", [48, 0, 0, 10], 1704070800⟩] ∧
    ((memEnv memPEMs []).UpdateOCSP (some "db-config.json") "11" [48, 0, 0, 11] 1704153601
        memWorld).1 = none ∧
    ((memEnv memPEMs []).UpdateOCSP (some "db-config.json") "11" [48, 0, 0, 11] 1704153601
        memWorld).2.ocsps =
      [⟨"10", [48, 0, 0, 10], 1704070800⟩, ⟨"11", [48, 0, 0, 11], 1704153601⟩] := by
  decide

/-- C8 fails on the code: on a store that refuses every write (through any handle)
both store writes of the run return an error, yet the run does not stop at the
first one: the second record is parsed, signed and written as well, the unexpired
OCSP records are read, a line is written to standard output and `ocspgenMain`
returns nil. -/
theorem store_write_error_is_dropped :
    ((memEnv memPEMs []).UpdateOCSP (some "db-config.json") "10" [48, 0, 0, 10] 1704153600
        memReadOnly).1 = some "attempt to write a readonly database" ∧
    upsertOutcomes (ocspgenMain (memEnv memPEMs []) [] memConfig memReadOnly).trace =
      [some "attempt to write a readonly database",
       some "attempt to write a readonly database"] ∧
    parsedPEMs (ocspgenMain (memEnv memPEMs []) [] memConfig memReadOnly).trace =
      ["PEM A", "PEM B"] ∧
    (signRequests (ocspgenMain (memEnv memPEMs []) [] memConfig memReadOnly).trace).map
      (fun req => req.Certificate.SerialNumber) = [10, 11] ∧
    printed (ocspgenMain (memEnv memPEMs []) [] memConfig memReadOnly).trace =
      ["MAAACg==\n"] ∧
    (ocspgenMain (memEnv memPEMs []) [] memConfig memReadOnly).val = none := by
  decide

end Claims

end Ocspgen
